import Mathlib

/-!
Verification development for the graphone sidecar broker (Rust sources under
src/src-tauri/src). Rust functions are shallowly embedded as executable Lean
definitions; stateful or IO-dependent behaviour is made explicit by passing
the relevant state (pending-request table, settings file system, spawn and
wire outcomes) as arguments. Machine integers (u64 counters) are modelled as
Nat with explicit reduction modulo 2^64 where the source can wrap.
-/

set_option maxHeartbeats 1000000

/-- Assoc-list lookup keyed by strings; models both serde_json object lookup
(Map::get) and HashMap::get for string keys. Returns the first binding. -/
def lookupKV {α : Type} : List (String × α) → String → Option α
  | [], _ => none
  | (k, v) :: rest, key => if k = key then some v else lookupKV rest key

/-- Assoc-list insert with HashMap/serde-Map semantics: replace the binding in
place when the key is present, otherwise append a new binding. -/
def insertKV {α : Type} : List (String × α) → String → α → List (String × α)
  | [], key, v => [(key, v)]
  | (k, w) :: rest, key, v =>
    if k = key then (key, v) :: rest else (k, w) :: insertKV rest key v

/-- Assoc-list removal of the first binding for a key; models HashMap::remove. -/
def eraseKV {α : Type} : List (String × α) → String → List (String × α)
  | [], _ => []
  | (k, v) :: rest, key => if k = key then rest else (k, v) :: eraseKV rest key

/-- Keys of an assoc list, used to state the at-most-one-binding-per-id
invariant of the pending-request table. -/
def keysOf {α : Type} (l : List (String × α)) : List String :=
  l.map Prod.fst

/-- Model of serde_json::Value. Numbers are restricted to the integers, which
covers every numeric field the embedded code reads (as_i64 on contentIndex). -/
inductive Json where
  | null : Json
  | bool (b : Bool) : Json
  | num (n : Int) : Json
  | str (s : String) : Json
  | arr (items : List Json) : Json
  | obj (fields : List (String × Json)) : Json

/-- Value::get on an object key: none on every non-object, first binding
otherwise — this is serde_json's behaviour. -/
def Json.get : Json → String → Option Json
  | .obj fields, key => lookupKV fields key
  | _, _ => none

/-- Value::as_str. -/
def Json.asStr : Json → Option String
  | .str s => some s
  | _ => none

/-- Value::as_i64 (our numbers are already integers). -/
def Json.asI64 : Json → Option Int
  | .num n => some n
  | _ => none

/-- RpcImageAttachment from src/src-tauri/src/commands.rs (type, data, mimeType). -/
structure RpcImageAttachment where
  rtype : String
  data : String
  mime_type : String

/-- RpcCommand with the full field set constructed throughout
src/src-tauri/src/commands.rs (the source declares the field `r#type`,
written `rtype` here). -/
structure RpcCommand where
  id : Option String
  rtype : String
  session_id : Option String
  cwd : Option String
  message : Option String
  provider : Option String
  model_id : Option String
  streaming_behavior : Option String
  session_file : Option String
  level : Option String
  images : Option (List RpcImageAttachment)

/-- RpcResponse from src/src-tauri/src/types.rs. -/
structure RpcResponse where
  id : Option String
  rtype : String
  command : String
  success : Bool
  data : Option Json
  error : Option String

/-- SessionEventEnvelope from src/src-tauri/src/types.rs. -/
structure SessionEventEnvelope where
  rtype : String
  session_id : String
  event : Json

/-- Lowercase hex digit characters as produced by Rust's `{:x}` formatting
(digits then letters starting at `a` = 97). -/
def hexDigitChar (n : Nat) : Char :=
  if n < 10 then Char.ofNat (48 + n) else Char.ofNat (87 + n)

/-- Hex digit list of a natural number, most significant first, no leading
zeros (single `0` digit for zero). -/
def hexDigits (n : Nat) : List Char :=
  if _h : n < 16 then [hexDigitChar n]
  else hexDigits (n / 16) ++ [hexDigitChar (n % 16)]
termination_by n
decreasing_by
  exact Nat.div_lt_self (Nat.lt_of_lt_of_le (by decide) (Nat.le_of_not_lt _h)) (by decide)

/-- Left-pad a digit list with `0` characters to the requested width; Rust's
`{:08x}` style padding (never truncates). -/
def padLeftZeros (width : Nat) (l : List Char) : List Char :=
  List.replicate (width - l.length) '0' ++ l

/-- Rust `format!("{:0wx}", n)` for lowercase hex with zero padding. -/
def hexPad (width n : Nat) : String :=
  ⟨padLeftZeros width (hexDigits n)⟩

/-- crypto_random_uuid from src/src-tauri/src/utils.rs (identical copy in
src/src-tauri/src/lib.rs): the value returned by the call that observes the
given counter value. The static AtomicU64 counter starts at 0 and fetch_add
wraps at 2^64, so call number n observes counter value n % 2^64. -/
def crypto_random_uuid (counter : Nat) : String :=
  let c := counter % 2 ^ 64
  hexPad 8 (c / 2 ^ 32) ++ "-" ++ hexPad 4 (c / 2 ^ 16 % 2 ^ 16) ++ "-" ++
    hexPad 4 (c / 2 ^ 8 % 2 ^ 16) ++ "-" ++ hexPad 4 (c % 2 ^ 16) ++ "-" ++
    hexPad 12 c

/-- Numeric value of one lowercase hex digit character (inverse of
hexDigitChar on digits below 16). -/
def hexCharVal (c : Char) : Nat :=
  if 97 ≤ c.toNat then c.toNat - 87 else c.toNat - 48

/-- Value of a big-endian hex digit list. -/
def hexListVal (l : List Char) : Nat :=
  l.foldl (fun acc c => acc * 16 + hexCharVal c) 0

/-- Recover the counter value from a generated uuid string: the first four
groups with their separators occupy exactly 24 characters, and the final
group is the full counter in hex. -/
def decodeUuid (s : String) : Nat :=
  hexListVal (s.data.drop 24)

/-- Whitespace trim on the character list of a string (Rust str::trim; the
ASCII whitespace classes suffice for every string the claims touch). -/
def trimString (s : String) : String :=
  ⟨((s.data.dropWhile Char.isWhitespace).reverse.dropWhile
    Char.isWhitespace).reverse⟩

/-- Split a character list at every occurrence of a separator character. -/
def splitChars (sep : Char) : List Char → List (List Char)
  | [] => [[]]
  | c :: rest =>
    match splitChars sep rest with
    | h :: t => if c = sep then [] :: h :: t else (c :: h) :: t
    | [] => [[c]]

/-- Split a string at a separator character (str::split). -/
def splitString (s : String) (sep : Char) : List String :=
  (splitChars sep s.data).map fun l => (⟨l⟩ : String)

/-- Byte value of the newline character used by EventHandler::extract_lines. -/
def newlineByte : Nat := 10

/-- Split a byte sequence into the complete lines before each newline byte
(newline excluded) and the trailing remainder after the last newline. This is
the loop of EventHandler::extract_lines, which repeatedly drains the buffer
up to and including the first newline. -/
def linesAndRest : List Nat → List (List Nat) × List Nat
  | [] => ([], [])
  | b :: bs =>
    if b = 10 then ([] :: (linesAndRest bs).1, (linesAndRest bs).2)
    else
      match linesAndRest bs with
      | (l :: ls, r) => ((b :: l) :: ls, r)
      | ([], r) => ([], b :: r)

/-- Drop one trailing carriage-return byte, as extract_lines pops a final
13 after popping the newline. -/
def stripTrailingCR (l : List Nat) : List Nat :=
  if l.getLast? = some 13 then l.dropLast else l

/-- Unicode replacement character emitted for ill-formed UTF-8. -/
def replacementChar : Char := Char.ofNat 0xFFFD

/-- UTF-8 continuation byte test (0x80..=0xBF). -/
def isUtf8Cont (b : Nat) : Bool := 128 ≤ b && b ≤ 191

/-- Valid second byte of a three-byte UTF-8 sequence for the given lead byte,
mirroring Rust's utf8 validation table (E0 excludes overlong encodings, ED
excludes surrogates). -/
def valid3Second (b0 b1 : Nat) : Bool :=
  if b0 = 224 then 160 ≤ b1 && b1 ≤ 191
  else if b0 = 237 then 128 ≤ b1 && b1 ≤ 159
  else isUtf8Cont b1

/-- Valid second byte of a four-byte UTF-8 sequence for the given lead byte
(F0 excludes overlong encodings, F4 caps at U+10FFFF). -/
def valid4Second (b0 b1 : Nat) : Bool :=
  if b0 = 240 then 144 ≤ b1 && b1 ≤ 191
  else if b0 = 244 then 128 ≤ b1 && b1 ≤ 143
  else isUtf8Cont b1

/-- Lossy UTF-8 decoding of a byte list, following Rust's
String::from_utf8_lossy: each maximal ill-formed subsequence prefix (as
determined by the validation error length) becomes one replacement
character, and an incomplete sequence at the end of input becomes a single
replacement character. -/
def utf8Decode : List Nat → List Char
  | [] => []
  | b0 :: rest =>
    if b0 < 128 then Char.ofNat b0 :: utf8Decode rest
    else if 194 ≤ b0 && b0 ≤ 223 then
      match rest with
      | [] => [replacementChar]
      | b1 :: rest1 =>
        if isUtf8Cont b1 then
          Char.ofNat ((b0 - 192) * 64 + (b1 - 128)) :: utf8Decode rest1
        else replacementChar :: utf8Decode (b1 :: rest1)
    else if 224 ≤ b0 && b0 ≤ 239 then
      match rest with
      | [] => [replacementChar]
      | b1 :: rest1 =>
        if valid3Second b0 b1 then
          match rest1 with
          | [] => [replacementChar]
          | b2 :: rest2 =>
            if isUtf8Cont b2 then
              Char.ofNat ((b0 - 224) * 4096 + (b1 - 128) * 64 + (b2 - 128)) ::
                utf8Decode rest2
            else replacementChar :: utf8Decode (b2 :: rest2)
        else replacementChar :: utf8Decode (b1 :: rest1)
    else if 240 ≤ b0 && b0 ≤ 244 then
      match rest with
      | [] => [replacementChar]
      | b1 :: rest1 =>
        if valid4Second b0 b1 then
          match rest1 with
          | [] => [replacementChar]
          | b2 :: rest2 =>
            if isUtf8Cont b2 then
              match rest2 with
              | [] => [replacementChar]
              | b3 :: rest3 =>
                if isUtf8Cont b3 then
                  Char.ofNat ((b0 - 240) * 262144 + (b1 - 128) * 4096 +
                      (b2 - 128) * 64 + (b3 - 128)) :: utf8Decode rest3
                else replacementChar :: utf8Decode (b3 :: rest3)
            else replacementChar :: utf8Decode (b2 :: rest2)
        else replacementChar :: utf8Decode (b1 :: rest1)
    else replacementChar :: utf8Decode rest

/-- EventHandler::decode_utf8_lossy: valid byte sequences decode exactly and
invalid ones fall back to lossy replacement, which the decoder above covers
uniformly. -/
def decode_utf8_lossy (bytes : List Nat) : String :=
  ⟨utf8Decode bytes⟩

/-- EventHandler::extract_lines: append the chunk to the persistent stream
buffer, split off every complete newline-terminated line (stripping the
newline and one optional carriage return) and decode each line; the
remainder stays buffered. Returns the decoded lines and the new buffer. -/
def extract_lines (chunk : List Nat) (buffer : List Nat) :
    List String × List Nat :=
  let split := linesAndRest (buffer ++ chunk)
  (split.1.map fun l => decode_utf8_lossy (stripTrailingCR l), split.2)

/-- Feed a sequence of stdout chunks through extract_lines, threading the
stream buffer exactly as EventHandler::handle_stdout does per chunk. -/
def feedChunks : List Nat → List (List Nat) → List String × List Nat
  | buffer, [] => ([], buffer)
  | buffer, c :: cs =>
    let step := extract_lines c buffer
    let rest := feedChunks step.2 cs
    (step.1 ++ rest.1, rest.2)

/-- EventHandler::flush_stdout_buffer on stream end: decode whatever bytes
remain, pop one trailing carriage return from the decoded string, and
forward the line unless blank. -/
def flush_stdout_buffer (buffer : List Nat) : Option String :=
  if buffer.isEmpty then none
  else
    let line := decode_utf8_lossy buffer
    let line := if line.data.getLast? = some '\r' then ⟨line.data.dropLast⟩ else line
    if (trimString line).isEmpty then none else some line

/-- Complete stdout framing pipeline for a finite stream: the logical units
produced chunk by chunk, plus the best-effort final unit flushed at stream
end. -/
def processStream (chunks : List (List Nat)) : List String × Option String :=
  let fed := feedChunks [] chunks
  (fed.1, flush_stdout_buffer fed.2)

/-- SessionDeltaCoalescer::delta_event_key: only message_update events whose
assistantMessageEvent is a text_delta or thinking_delta with an integral
contentIndex are coalescable, keyed by (delta kind, content index). -/
def delta_event_key (event : Json) : Option (String × Int) :=
  match (event.get "type").bind Json.asStr with
  | none => none
  | some eventType =>
    if eventType = "message_update" then
      match event.get "assistantMessageEvent" with
      | none => none
      | some assistantEvent =>
        match (assistantEvent.get "type").bind Json.asStr with
        | none => none
        | some deltaType =>
          if deltaType = "text_delta" ∨ deltaType = "thinking_delta" then
            match (assistantEvent.get "contentIndex").bind Json.asI64 with
            | none => none
            | some contentIndex => some (deltaType, contentIndex)
          else none
    else none

/-- SessionDeltaCoalescer::is_delta_event. -/
def is_delta_event (event : Json) : Bool :=
  (delta_event_key event).isSome

/-- Delta fragment carried by a coalescable event: its
assistantMessageEvent.delta field read as a string. -/
def deltaStringOf (event : Json) : Option String :=
  ((event.get "assistantMessageEvent").bind fun a => a.get "delta").bind Json.asStr

/-- SessionDeltaCoalescer::append_delta: concatenate the source's delta
fragment (empty when missing or non-string) onto the target's delta and store
it back; fails (none) exactly when the target has no assistantMessageEvent
object, in which case the caller pushes the event instead. -/
def append_delta (target source : Json) : Option Json :=
  let sourceDelta := (deltaStringOf source).getD ""
  match target with
  | .obj fields =>
    match lookupKV fields "assistantMessageEvent" with
    | some (.obj assistantFields) =>
      let nextDelta :=
        match (lookupKV assistantFields "delta").bind Json.asStr with
        | some existing => existing ++ sourceDelta
        | none => sourceDelta
      some (.obj (insertKV fields "assistantMessageEvent"
        (.obj (insertKV assistantFields "delta" (.str nextDelta)))))
    | _ => none
  | _ => none

/-- Queue update of SessionDeltaCoalescer::maybe_queue_delta once the event's
key is known: merge into the last queued event when its key matches and
append_delta succeeds, otherwise push a new buffered entry. -/
def queueDelta (queue : List Json) (event : Json) (key : String × Int) :
    List Json :=
  match queue.getLast? with
  | some lastEvent =>
    match delta_event_key lastEvent with
    | some lastKey =>
      if lastKey = key then
        match append_delta lastEvent event with
        | some merged => queue.dropLast ++ [merged]
        | none => queue ++ [event]
      else queue ++ [event]
    | none => queue ++ [event]
  | none => queue ++ [event]

/-- SessionDeltaCoalescer::maybe_queue_delta on the per-session pending map:
non-delta events are rejected without touching the map; delta events are
queued (creating the session entry on demand) and accepted. -/
def maybe_queue_delta (pending : List (String × List Json)) (sessionId : String)
    (event : Json) : List (String × List Json) × Bool :=
  match delta_event_key event with
  | none => (pending, false)
  | some key =>
    let queue := (lookupKV pending sessionId).getD []
    (insertKV pending sessionId (queueDelta queue event key), true)

/-- SessionDeltaCoalescer::flush_session: remove the session's queue and emit
every buffered event in order (the returned list is what is handed to
EventHandler::emit_session_event). -/
def flush_session (pending : List (String × List Json)) (sessionId : String) :
    List Json × List (String × List Json) :=
  ((lookupKV pending sessionId).getD [], eraseKV pending sessionId)

/-- Concatenation of the delta fragments of a list of events in arrival
order, reading each fragment the way append_delta does (missing or
non-string fragments contribute the empty string). -/
def concatFrags (events : List Json) : String :=
  events.foldr (fun e acc => (deltaStringOf e).getD "" ++ acc) ""

/-- Outcome of one cross-task stdin write attempt, as seen by
send_command_with_response. -/
inductive WriteOutcome where
  | ok : WriteOutcome
  | fail (msg : String) : WriteOutcome

/-- Environment of one send_command_with_response call: the results of the
two stdin writes, the wire response (if any) that the event listener routes
to this request's id before the timeout elapses, and whether the single-use
waiter was dropped without resolution by outside interference (the only way
the oneshot receive can fail). -/
structure SendEnv where
  write1 : WriteOutcome
  write2 : WriteOutcome
  arrival : Option RpcResponse
  senderDropped : Bool

/-- Shared broker state relevant to the claims: the child process handle and
the pending-request table (SidecarState.child / SidecarState.pending_requests,
with waiters identified by an abstract token standing for the oneshot sender). -/
structure BrokerState where
  child : Option Unit
  pending : List (String × Nat)

/-- Trace events recording the pending-table operations and stdin writes a
call performs, in program order. -/
inductive TraceEv where
  | insertEv (id : String) : TraceEv
  | writeEv : TraceEv
  | removeEv (id : String) : TraceEv
  | resolveEv (id : String) : TraceEv
deriving DecidableEq

/-- Routing step of EventHandler::handle_parsed_json for a decoded response:
only responses carrying an id are forwarded, paired with that id. -/
def routeResponsePair (response : RpcResponse) : Option (String × RpcResponse) :=
  response.id.map fun i => (i, response)

/-- EventHandler::spawn_response_handler step: remove the waiter registered
under the routed id (if any) and resolve it with the response. -/
def responseHandlerStep (pending : List (String × Nat))
    (routed : String × RpcResponse) :
    List (String × Nat) × Option (Nat × RpcResponse) :=
  match lookupKV pending routed.1 with
  | some token => (eraseKV pending routed.1, some (token, routed.2))
  | none => (pending, none)

/-- RpcClient::send_command_with_response. The call registers the waiter
before writing, removes it itself on write failure, closed channel and
timeout, and in the delivered case the response handler removes it while
resolving; the environment decides which path is taken. Returns the result,
the post-call broker state, and the operation trace. -/
def send_command_with_response (st : BrokerState) (_command : RpcCommand)
    (id : String) (_timeout_secs : Nat) (token : Nat) (env : SendEnv) :
    Except String RpcResponse × BrokerState × List TraceEv :=
  match st.child with
  | none => (.error "Agent session not started", st, [])
  | some child =>
    let registered := insertKV st.pending id token
    match env.write1 with
    | .fail e =>
      (.error ("Failed to write to sidecar: " ++ e),
        ⟨some child, eraseKV registered id⟩,
        [.insertEv id, .writeEv, .removeEv id])
    | .ok =>
      match env.write2 with
      | .fail e =>
        (.error ("Failed to write newline to sidecar: " ++ e),
          ⟨some child, eraseKV registered id⟩,
          [.insertEv id, .writeEv, .writeEv, .removeEv id])
      | .ok =>
        if env.senderDropped then
          (.error "Response channel closed",
            ⟨some child, eraseKV registered id⟩,
            [.insertEv id, .writeEv, .writeEv, .removeEv id])
        else
          match env.arrival.bind routeResponsePair with
          | some routed =>
            if routed.1 = id then
              (.ok routed.2,
                ⟨some child, eraseKV registered id⟩,
                [.insertEv id, .writeEv, .writeEv, .removeEv id, .resolveEv id])
            else
              (.error "Timeout waiting for response",
                ⟨some child, eraseKV registered id⟩,
                [.insertEv id, .writeEv, .writeEv, .removeEv id])
          | none =>
            (.error "Timeout waiting for response",
              ⟨some child, eraseKV registered id⟩,
              [.insertEv id, .writeEv, .writeEv, .removeEv id])

/-- Classifier used to state C1: the call resolved with the response whose id
equals the command's correlation id. -/
def IsMatchedResponse (result : Except String RpcResponse) (id : String) : Prop :=
  ∃ r, result = .ok r ∧ r.id = some id

/-- Classifier used to state C1: the call returned the timeout error. -/
def IsTimeoutOutcome (result : Except String RpcResponse) : Prop :=
  result = .error "Timeout waiting for response"

/-- Classifier used to state C1: the call returned a stdin write error. -/
def IsWriteErrorOutcome (result : Except String RpcResponse) : Prop :=
  ∃ e, result = .error ("Failed to write to sidecar: " ++ e) ∨
    result = .error ("Failed to write newline to sidecar: " ++ e)

/-- Exactly one of three alternatives holds. -/
def ExactlyOneOf (a b c : Prop) : Prop :=
  (a ∧ ¬b ∧ ¬c) ∨ (¬a ∧ b ∧ ¬c) ∨ (¬a ∧ ¬b ∧ c)

/-- Bool test of a trace event being the waiter insertion for an id. -/
def isInsertOf (id : String) : TraceEv → Bool
  | .insertEv k => k = id
  | _ => false

/-- Bool test of a trace event being the waiter removal for an id. -/
def isRemoveOf (id : String) : TraceEv → Bool
  | .removeEv k => k = id
  | _ => false

/-- Number of waiter insertions for an id in a trace. -/
def insertCount (trace : List TraceEv) (id : String) : Nat :=
  (trace.filter (isInsertOf id)).length

/-- Number of waiter removals for an id in a trace. -/
def removeCount (trace : List TraceEv) (id : String) : Nat :=
  (trace.filter (isRemoveOf id)).length

/-- Whether the needle list occurs at the start of the haystack. -/
def startsWithChars : List Char → List Char → Bool
  | _, [] => true
  | [], _ :: _ => false
  | h :: hs, n :: ns => h = n && startsWithChars hs ns

/-- Whether the needle occurs anywhere in the haystack (str::contains). -/
def containsChars : List Char → List Char → Bool
  | [], needle => needle.isEmpty
  | h :: hs, needle => startsWithChars (h :: hs) needle || containsChars hs needle

/-- is_timeout_error from src/src-tauri/src/commands.rs: substring test for
the broker's timeout message. -/
def is_timeout_error (error : String) : Bool :=
  containsChars error.data "Timeout waiting for response".data

/-- Constants for readiness probing and session creation from
src/src-tauri/src/commands.rs. -/
def SIDECAR_READY_TIMEOUT_SECS : Nat := 20

/-- Number of readiness ping attempts. -/
def SIDECAR_READY_ATTEMPTS : Nat := 3

/-- Fixed backoff between readiness ping attempts, in milliseconds. -/
def SIDECAR_READY_RETRY_DELAY_MS : Nat := 500

/-- Timeout for each create_session attempt, in seconds. -/
def CREATE_SESSION_TIMEOUT_SECS : Nat := 20

/-- Number of create_session attempts. -/
def CREATE_SESSION_ATTEMPTS : Nat := 3

/-- Backoff between create_session retries, in milliseconds. -/
def CREATE_SESSION_RETRY_DELAY_MS : Nat := 600

/-- The no-op ping command built by each attempt of wait_for_sidecar_ready:
only an id and the type "ping", every other field absent. -/
def pingCommand (uid : String) : RpcCommand :=
  ⟨some uid, "ping", none, none, none, none, none, none, none, none, none⟩

/-- Whether one readiness attempt's outcome is a successful ping response. -/
def isSuccessPing (outcome : Except String RpcResponse) : Bool :=
  match outcome with
  | .ok r => r.success
  | .error _ => false

/-- Failure text recorded from one unsuccessful readiness attempt (the
last_error updates in wait_for_sidecar_ready). -/
def readyFailMsg (outcome : Except String RpcResponse) : String :=
  match outcome with
  | .ok r => r.error.getD "Sidecar readiness ping failed"
  | .error e => e

/-- Loop of wait_for_sidecar_ready: attempts run from `attempt` while
`remaining` is positive; a successful ping returns immediately, other
outcomes record the failure text and sleep 500 ms when further attempts
remain. Returns the result, the number of pings sent, and the sleeps
performed (in milliseconds). -/
def waitReadyAux (env : Nat → Except String RpcResponse) (attempts : Nat) :
    Nat → Nat → String → Except String Unit × Nat × List Nat
  | _, 0, lastError =>
    (.error ("Sidecar failed readiness check after " ++ toString attempts ++
      " attempts: " ++ lastError), 0, [])
  | attempt, remaining + 1, _lastError =>
    let outcome := env attempt
    if isSuccessPing outcome then (.ok (), 1, [])
    else
      let next := waitReadyAux env attempts (attempt + 1) remaining
        (readyFailMsg outcome)
      (next.1, next.2.1 + 1,
        if attempt < attempts then SIDECAR_READY_RETRY_DELAY_MS :: next.2.2
        else next.2.2)

/-- wait_for_sidecar_ready: the environment gives each attempt's
send_command_with_response outcome for its ping. -/
def wait_for_sidecar_ready (env : Nat → Except String RpcResponse)
    (attempts : Nat) : Except String Unit × Nat × List Nat :=
  waitReadyAux env attempts 1 attempts "unknown sidecar readiness failure"

/-- ensure_sidecar_started from src/src-tauri/src/commands.rs: with a child
already present it returns success immediately (no spawn); otherwise it
spawns, installs the child and response channel, and runs the readiness
probe. Returns the result, the post-call state, and whether a spawn
happened. -/
def ensure_sidecar_started (st : BrokerState) (spawn : Except String Unit)
    (ready : Nat → Except String RpcResponse) :
    Except String Unit × BrokerState × Bool :=
  if st.child.isSome then (.ok (), st, false)
  else
    match spawn with
    | .error e => (.error e, st, false)
    | .ok () =>
      let st' : BrokerState := ⟨some (), st.pending⟩
      ((wait_for_sidecar_ready ready SIDECAR_READY_ATTEMPTS).1, st', true)

/-- start_agent_session from src/src-tauri/src/lib.rs (the legacy start
command): with a child already present it returns the error "Agent session
already running" without spawning; otherwise it spawns and installs the
child. -/
def start_agent_session (st : BrokerState) (spawn : Except String Unit) :
    Except String Unit × BrokerState × Bool :=
  if st.child.isSome then (.error "Agent session already running", st, false)
  else
    match spawn with
    | .error e => (.error e, st, false)
    | .ok () => (.ok (), ⟨some (), st.pending⟩, true)

/-- The create_session command built by one attempt of
create_session_internal: a fresh command id but always the same requested
session id, cwd, provider, model and session file. -/
def createSessionCommand (uid requestedSessionId projectDir : String)
    (provider model sessionFile : Option String) : RpcCommand :=
  ⟨some uid, "create_session", some requestedSessionId, some projectDir,
    none, provider, model, none, sessionFile, none, none⟩

/-- Retry loop of create_session_internal: each attempt sends a
create_session command; a response returns immediately, an error retries
after a 600 ms sleep only when it is timeout-classified and attempts remain,
and otherwise propagates. Returns the result, the commands sent in order,
and the sleeps performed (in milliseconds). -/
def createSessionAux (env : Nat → Except String RpcResponse)
    (ids : Nat → String) (requestedSessionId projectDir : String)
    (provider model sessionFile : Option String) :
    Nat → Nat → String → Except String RpcResponse × List RpcCommand × List Nat
  | _, 0, lastError => (.error lastError, [], [])
  | attempt, remaining + 1, _lastError =>
    let command := createSessionCommand (ids attempt) requestedSessionId
      projectDir provider model sessionFile
    match env attempt with
    | .ok response => (.ok response, [command], [])
    | .error e =>
      if is_timeout_error e ∧ attempt < CREATE_SESSION_ATTEMPTS then
        let next := createSessionAux env ids requestedSessionId projectDir
          provider model sessionFile (attempt + 1) remaining e
        (next.1, command :: next.2.1, CREATE_SESSION_RETRY_DELAY_MS :: next.2.2)
      else (.error e, [command], [])

/-- create_session_internal's attempt loop, started at attempt 1 with the
initial last_error text from the source. -/
def create_session_internal (env : Nat → Except String RpcResponse)
    (ids : Nat → String) (requestedSessionId projectDir : String)
    (provider model sessionFile : Option String) :
    Except String RpcResponse × List RpcCommand × List Nat :=
  createSessionAux env ids requestedSessionId projectDir provider model
    sessionFile 1 CREATE_SESSION_ATTEMPTS "Failed to create session"

/-- Content of one settings file as the model file system stores it: either
unreadable/unparseable, or a parsed JSON document (serde round-trips the
document text, so storing the parsed value is faithful). -/
inductive FileContent where
  | invalid : FileContent
  | val (j : Json) : FileContent

/-- Model file system for the settings claims: path to content. -/
def SettingsFs : Type := List (String × FileContent)

/-- project_settings_path: the provided project directory joined with
.pi/settings.json, falling back to the process working directory. -/
def project_settings_path (projectDir : Option String) (cwd : Option String) :
    Option String :=
  match projectDir with
  | some dir => some (dir ++ "/.pi/settings.json")
  | none => cwd.map fun c => c ++ "/.pi/settings.json"

/-- global_settings_path: home joined with .pi/agent/settings.json. -/
def global_settings_path (home : Option String) : Option String :=
  home.map fun h => h ++ "/.pi/agent/settings.json"

/-- EnabledModelsResponse from src/src-tauri/src/commands.rs. -/
structure EnabledModelsResponse where
  patterns : List String
  defined : Bool
  source : String
deriving DecidableEq

/-- read_enabled_models_from_settings: (defined, patterns). Missing file,
unreadable file, non-JSON content, non-object root and missing key all read
as undefined; an explicit null is defined with no patterns; a non-array
value is undefined; an array keeps its non-empty trimmed string elements. -/
def read_enabled_models_from_settings (fs : SettingsFs) (path : String) :
    Bool × List String :=
  match lookupKV fs path with
  | none => (false, [])
  | some .invalid => (false, [])
  | some (.val settings) =>
    match settings with
    | .obj fields =>
      match lookupKV fields "enabledModels" with
      | none => (false, [])
      | some .null => (true, [])
      | some (.arr items) =>
        (true, (items.filterMap fun v => (Json.asStr v).map trimString).filter
          fun s => !s.isEmpty)
      | some _ => (false, [])
    | _ => (false, [])

/-- write_enabled_models_to_settings: re-read the existing document (falling
back to an empty object when missing, unparseable or non-object), overwrite
the enabledModels key with the given patterns, and write the document back. -/
def write_enabled_models_to_settings (fs : SettingsFs) (path : String)
    (patterns : List String) : SettingsFs :=
  let root :=
    match lookupKV fs path with
    | some (.val (.obj fields)) => Json.obj fields
    | _ => Json.obj []
  let root' :=
    match root with
    | .obj fields =>
      Json.obj (insertKV fields "enabledModels" (.arr (patterns.map Json.str)))
    | _ => Json.obj [("enabledModels", .arr (patterns.map Json.str))]
  insertKV fs path (.val root')

/-- load_enabled_models: project settings take precedence when the key is
defined there, then global settings, then the undefined response. -/
def load_enabled_models (fs : SettingsFs) (projectDir : Option String)
    (home cwd : Option String) : EnabledModelsResponse :=
  let fromProject : Option EnabledModelsResponse :=
    match project_settings_path projectDir cwd with
    | some projectPath =>
      let read := read_enabled_models_from_settings fs projectPath
      if read.1 then some ⟨read.2, read.1, "project"⟩ else none
    | none => none
  match fromProject with
  | some response => response
  | none =>
    let fromGlobal : Option EnabledModelsResponse :=
      match global_settings_path home with
      | some globalPath =>
        let read := read_enabled_models_from_settings fs globalPath
        if read.1 then some ⟨read.2, read.1, "global"⟩ else none
      | none => none
    match fromGlobal with
    | some response => response
    | none => ⟨[], false, "none"⟩

/-- set_enabled_models: resolve the target settings file from the scope
("project", "global", or "auto" preferring an existing project file), write
the patterns there, and return the reloaded effective response together with
the updated file system. -/
def set_enabled_models (fs : SettingsFs) (patterns : List String)
    (scope : Option String) (projectDir : Option String)
    (home cwd : Option String) :
    Except String (EnabledModelsResponse × SettingsFs) :=
  let scopeName := scope.getD "auto"
  let projectPath := project_settings_path projectDir cwd
  let globalPath := global_settings_path home
  let targetPath : Except String String :=
    if scopeName = "project" then
      match projectPath with
      | some p => .ok p
      | none => .error "Failed to determine project settings path"
    else if scopeName = "global" then
      match globalPath with
      | some p => .ok p
      | none => .error "Failed to determine global settings path"
    else if scopeName = "auto" then
      match projectPath with
      | some p =>
        if (lookupKV fs p).isSome then .ok p
        else
          match globalPath with
          | some g => .ok g
          | none => .error "Failed to determine global settings path"
      | none =>
        match globalPath with
        | some g => .ok g
        | none => .error "Failed to determine global settings path"
    else .error ("Invalid scope " ++ scopeName ++
      ": expected auto, project, or global")
  match targetPath with
  | .error e => .error e
  | .ok path =>
    let fs' := write_enabled_models_to_settings fs path patterns
    .ok (load_enabled_models fs' projectDir home cwd, fs')

/-- normalize_path_for_comparison: trim whitespace and remove trailing
slashes and backslashes. -/
def normalize_path_for_comparison (path : String) : String :=
  ⟨(((trimString path).data.reverse.dropWhile fun c => c = '/' ∨ c = '\\').reverse)⟩

/-- Path components of a slash-separated path string (empty segments
dropped), the granularity at which PathBuf::starts_with compares. -/
def pathComponents (path : String) : List String :=
  (splitString path '/').filter fun s => s ≠ ""

/-- Rust Path::extension on a path string: the part of the file name after
its last dot, except that a file name without a dot past position zero has
no extension. -/
def extensionOf (path : String) : Option String :=
  match (pathComponents path).getLast? with
  | none => none
  | some name =>
    let parts := splitString name '.' 
    match parts with
    | [] => none
    | [_] => none
    | first :: _ :: _ =>
      if first = "" ∧ parts.length = 2 then none else parts.getLast?

/-- path_is_within_root: both the path and the root must canonicalize (the
environment's canonical function returns none for non-existent paths, folding
in canonicalize_if_exists), and the canonical root must be a component-wise
prefix of the canonical path. -/
def path_is_within_root (canonical : String → Option String)
    (path root : String) : Bool :=
  match canonical path, canonical root with
  | some pathCanonical, some rootCanonical =>
    (pathComponents rootCanonical).isPrefixOf (pathComponents pathCanonical)
  | _, _ => false

/-- local_session_roots_for_scope from src/src-tauri/src/commands.rs. -/
def local_session_roots_for_scope (scope : String) : List String :=
  [scope ++ "/.pi/sessions", scope ++ "/.pi/agent/sessions"]

/-- encode_scope_dir_name: strip leading slashes and backslashes from the
trimmed cwd, replace slashes, backslashes and colons with dashes, and wrap
in double dashes. -/
def encode_scope_dir_name (cwd : String) : String :=
  let dropped : List Char := (trimString cwd).data.dropWhile fun c => c = '/' ∨ c = '\\'
  let replaced : List Char := dropped.map fun c =>
    if c = '/' ∨ c = '\\' ∨ c = ':' then '-' else c
  "--" ++ (⟨replaced⟩ : String) ++ "--"

/-- Parsed session-file header (extract_session_header_from_file): the
session id and normalized scope plus the optional metadata fields. -/
structure SessionFileHeader where
  session_id : String
  scope : String
  timestamp : Option String
  first_user_message : Option String

/-- Environment of one delete_project_session call: file existence,
canonicalization, the global candidate session roots, header parsing, and
whether removal and the opportunistic parent cleanup succeed. -/
structure DeleteEnv where
  fileExists : String → Bool
  canonical : String → Option String
  candidateRoots : List String
  header : String → Option SessionFileHeader
  removeOk : Bool
  parentEmptyAfter : Bool

/-- DeleteProjectSessionResponse from src/src-tauri/src/commands.rs. -/
structure DeleteProjectSessionResponse where
  deleted : Bool
deriving DecidableEq

/-- delete_project_session: validate the arguments, treat a missing file as
an idempotent no-op, and require a .jsonl extension, containment in a known
session root, and a header matching the provided scope and session id before
removing the file; afterwards remove the parent directory when it is the
encoded scope directory and became empty. Returns the command result, the
removed file (if any), and the removed directory components (if any). -/
def delete_project_session (env : DeleteEnv)
    (project_dir session_id file_path : String) :
    Except String DeleteProjectSessionResponse × Option String ×
      Option (List String) :=
  let normalizedScope := normalize_path_for_comparison project_dir
  if normalizedScope = "" then
    (.error "project_dir cannot be empty", none, none)
  else
    let normalizedSessionId := trimString session_id
    if normalizedSessionId = "" then
      (.error "session_id cannot be empty", none, none)
    else
      let normalizedFilePath := trimString file_path
      if normalizedFilePath = "" then
        (.error "file_path cannot be empty", none, none)
      else
        if env.fileExists normalizedFilePath = false then
          (.ok ⟨false⟩, none, none)
        else if extensionOf normalizedFilePath ≠ some "jsonl" then
          (.error "file_path must point to a .jsonl session file", none, none)
        else
          let roots := env.candidateRoots ++
            local_session_roots_for_scope normalizedScope
          if !(roots.any fun root =>
              path_is_within_root env.canonical normalizedFilePath root) then
            (.error "file_path is outside known session roots", none, none)
          else
            match env.header normalizedFilePath with
            | none => (.error "file_path is not a valid session file", none, none)
            | some header =>
              if normalize_path_for_comparison header.scope ≠ normalizedScope then
                (.error "session scope mismatch for provided project_dir",
                  none, none)
              else if trimString header.session_id ≠ normalizedSessionId then
                (.error "session id mismatch for provided file_path", none, none)
              else if env.removeOk = false then
                (.error ("Failed to delete session file " ++ normalizedFilePath),
                  none, none)
              else
                let components := pathComponents normalizedFilePath
                let parentName := components.dropLast.getLast?
                let removedDir :=
                  if parentName = some (encode_scope_dir_name normalizedScope) ∧
                      env.parentEmptyAfter then
                    some components.dropLast
                  else none
                (.ok ⟨true⟩, some normalizedFilePath, removedDir)

/-- Shape invariant of the (single) buffered event for a coalescing run: a
message_update whose assistantMessageEvent object carries the delta kind, the
content index and the accumulated delta string. -/
def MergedInv (t : Json) (k : String) (i : Int) (acc : String) : Prop :=
  ∃ fields assistantFields,
    t = .obj fields ∧
    lookupKV fields "type" = some (.str "message_update") ∧
    lookupKV fields "assistantMessageEvent" = some (.obj assistantFields) ∧
    lookupKV assistantFields "type" = some (.str k) ∧
    (k = "text_delta" ∨ k = "thinking_delta") ∧
    lookupKV assistantFields "contentIndex" = some (.num i) ∧
    lookupKV assistantFields "delta" = some (.str acc)

/-- Concrete text_delta session event at content index 0 carrying the given
fragment, used by the coalescing witness. -/
def sampleDeltaEvent (fragment : String) : Json :=
  .obj [("type", .str "message_update"),
    ("assistantMessageEvent", .obj [("type", .str "text_delta"),
      ("contentIndex", .num 0), ("delta", .str fragment)])]

/-! Theorems. Helper lemmas come first, then one theorem per claim (with a
witness or counterexample where required). -/

theorem hexCharVal_hexDigitChar : ∀ d, d < 16 → hexCharVal (hexDigitChar d) = d := by
  decide

theorem hexListVal_append_digit (l : List Char) (c : Char) :
    hexListVal (l ++ [c]) = hexListVal l * 16 + hexCharVal c := by
  simp [hexListVal]

theorem hexListVal_hexDigits (n : Nat) : hexListVal (hexDigits n) = n := by
  induction n using Nat.strong_induction_on with
  | _ n ih =>
    rw [hexDigits]
    split
    · next h =>
      simp [hexListVal, hexCharVal_hexDigitChar n h]
    · next h =>
      have hpos : 0 < n := by omega
      rw [hexListVal_append_digit, ih (n / 16) (Nat.div_lt_self hpos (by decide)),
        hexCharVal_hexDigitChar (n % 16) (Nat.mod_lt n (by decide))]
      omega

theorem foldlZeros (k : Nat) :
    List.foldl (fun acc c => acc * 16 + hexCharVal c) 0 (List.replicate k '0') = 0 := by
  induction k with
  | zero => rfl
  | succ k ih =>
    rw [List.replicate_succ, List.foldl_cons]
    have h0 : (0 : Nat) * 16 + hexCharVal '0' = 0 := by decide
    rw [h0]
    exact ih

theorem hexListVal_padLeftZeros (w : Nat) (l : List Char) :
    hexListVal (padLeftZeros w l) = hexListVal l := by
  simp [padLeftZeros, hexListVal, List.foldl_append, foldlZeros]

theorem hexDigits_length_le (n : Nat) :
    ∀ w, n < 16 ^ (w + 1) → (hexDigits n).length ≤ w + 1 := by
  induction n using Nat.strong_induction_on with
  | _ n ih =>
    intro w hw
    rw [hexDigits]
    split
    · simp
    · next h =>
      have h16 : 16 ≤ n := Nat.le_of_not_lt h
      have hw1 : 1 ≤ w := by
        by_contra hw0
        have hw0' : w = 0 := by omega
        subst hw0'
        simp [pow_one] at hw
        omega
      obtain ⟨w', rfl⟩ : ∃ w', w = w' + 1 := ⟨w - 1, by omega⟩
      have hmul : n < 16 ^ (w' + 1) * 16 := by
        calc n < 16 ^ (w' + 1 + 1) := hw
        _ = 16 ^ (w' + 1) * 16 := by rw [pow_succ]
      have hdiv : n / 16 < 16 ^ (w' + 1) :=
        (Nat.div_lt_iff_lt_mul (by decide)).mpr hmul
      have hrec := ih (n / 16) (Nat.div_lt_self (by omega) (by decide)) w' hdiv
      simp only [List.length_append, List.length_singleton]
      omega

theorem padLeftZeros_length (w : Nat) (l : List Char) (h : l.length ≤ w) :
    (padLeftZeros w l).length = w := by
  simp [padLeftZeros]
  omega

theorem decodeUuid_crypto_random_uuid (c : Nat) (hc : c < 2 ^ 64) :
    decodeUuid (crypto_random_uuid c) = c := by
  have hmod : c % 2 ^ 64 = c := Nat.mod_eq_of_lt hc
  have hq : c / 2 ^ 32 < 16 ^ 8 := by
    have : c < 2 ^ 32 * 16 ^ 8 := by norm_num at hc ⊢; omega
    exact Nat.div_lt_of_lt_mul this
  have h8 : (padLeftZeros 8 (hexDigits (c / 2 ^ 32))).length = 8 :=
    padLeftZeros_length _ _ (hexDigits_length_le _ 7 hq)
  have hm1 : c / 2 ^ 16 % 2 ^ 16 < 16 ^ 4 := by
    have := Nat.mod_lt (c / 2 ^ 16) (show 0 < 2 ^ 16 by norm_num)
    norm_num at this ⊢
    omega
  have hm2 : c / 2 ^ 8 % 2 ^ 16 < 16 ^ 4 := by
    have := Nat.mod_lt (c / 2 ^ 8) (show 0 < 2 ^ 16 by norm_num)
    norm_num at this ⊢
    omega
  have hm3 : c % 2 ^ 16 < 16 ^ 4 := by
    have := Nat.mod_lt c (show 0 < 2 ^ 16 by norm_num)
    norm_num at this ⊢
    omega
  have h4a : (padLeftZeros 4 (hexDigits (c / 2 ^ 16 % 2 ^ 16))).length = 4 :=
    padLeftZeros_length _ _ (hexDigits_length_le _ 3 hm1)
  have h4b : (padLeftZeros 4 (hexDigits (c / 2 ^ 8 % 2 ^ 16))).length = 4 :=
    padLeftZeros_length _ _ (hexDigits_length_le _ 3 hm2)
  have h4c : (padLeftZeros 4 (hexDigits (c % 2 ^ 16))).length = 4 :=
    padLeftZeros_length _ _ (hexDigits_length_le _ 3 hm3)
  have hdash : ("-" : String).data = ['-'] := rfl
  simp only [decodeUuid, crypto_random_uuid, hmod, String.data_append, hexPad, hdash]
  rw [List.drop_left' (by
    simp only [List.length_append, h8, h4a, h4b, h4c, List.length_singleton])]
  rw [hexListVal_padLeftZeros, hexListVal_hexDigits]

/-- C9: crypto_random_uuid is a deterministic global counter, not a random
generator. The call observing counter value n returns a string fully
determined by n modulo 2^64 (the u64 wrap), and any two counter values below
2^64 yield distinct strings, so within a process run every generated command
id is unique. -/
theorem crypto_random_uuid_deterministic_distinct :
    (∀ n : Nat, crypto_random_uuid n = crypto_random_uuid (n % 2 ^ 64)) ∧
    ∀ m n : Nat, m < 2 ^ 64 → n < 2 ^ 64 → m ≠ n →
      crypto_random_uuid m ≠ crypto_random_uuid n := by
  constructor
  · intro n
    simp [crypto_random_uuid, Nat.mod_mod_of_dvd n dvd_rfl]
  · intro m n hm hn hne heq
    exact hne (by
      rw [← decodeUuid_crypto_random_uuid m hm, heq,
        decodeUuid_crypto_random_uuid n hn])

/-- Witness for C9 at concrete counter values 0 and 1. -/
theorem crypto_random_uuid_distinct_witness :
    crypto_random_uuid 0 ≠ crypto_random_uuid 1 :=
  crypto_random_uuid_deterministic_distinct.2 0 1 (by norm_num) (by norm_num)
    (by decide)

theorem linesAndRest_no_newline (bs : List Nat) (h : 10 ∉ bs) :
    linesAndRest bs = ([], bs) := by
  induction bs with
  | nil => rfl
  | cons b bs ih =>
    have hb : ¬b = 10 := fun hb => h (by simp [hb])
    have hrest : 10 ∉ bs := fun hm => h (by simp [hm])
    simp [linesAndRest, hb, ih hrest]

theorem linesAndRest_rest_no_newline (bs : List Nat) :
    10 ∉ (linesAndRest bs).2 := by
  induction bs with
  | nil => simp [linesAndRest]
  | cons b bs ih =>
    by_cases hb : b = 10
    · simpa [linesAndRest, hb] using ih
    · rcases hx : linesAndRest bs with ⟨L, R⟩
      rw [hx] at ih
      cases L with
      | nil =>
        simp only [linesAndRest, hb, if_false, hx]
        intro hmem
        rcases List.mem_cons.mp hmem with h1 | h2
        · exact hb h1.symm
        · exact ih h2
      | cons l ls =>
        simpa [linesAndRest, hb, hx] using ih

theorem linesAndRest_append (x y : List Nat) :
    linesAndRest (x ++ y) =
      ((linesAndRest x).1 ++ (linesAndRest ((linesAndRest x).2 ++ y)).1,
        (linesAndRest ((linesAndRest x).2 ++ y)).2) := by
  induction x with
  | nil => simp [linesAndRest]
  | cons b x ih =>
    by_cases hb : b = 10
    · simp [linesAndRest, hb, ih]
    · rcases hx : linesAndRest x with ⟨L, R⟩
      rw [hx] at ih
      simp only at ih
      rcases hry : linesAndRest (R ++ y) with ⟨L2, R2⟩
      rw [hry] at ih
      simp only at ih
      cases L with
      | nil =>
        simp only [linesAndRest, hb, if_false, hx, List.cons_append, ih,
          List.nil_append]
        cases L2 with
        | nil =>
          simp only [List.append_eq]
          rw [ih, hry]
          simp
        | cons a as =>
          simp only [List.append_eq]
          rw [ih, hry]
          simp
      | cons l ls =>
        simp [linesAndRest, hb, hx, ih, hry]

theorem feedChunks_eq_join (cs : List (List Nat)) :
    ∀ buffer : List Nat, 10 ∉ buffer →
      feedChunks buffer cs =
        ((linesAndRest (buffer ++ cs.flatten)).1.map
            (fun l => decode_utf8_lossy (stripTrailingCR l)),
          (linesAndRest (buffer ++ cs.flatten)).2) := by
  induction cs with
  | nil =>
    intro buffer h
    simp [feedChunks, linesAndRest_no_newline buffer h]
  | cons c cs ih =>
    intro buffer h
    have hrest := linesAndRest_rest_no_newline (buffer ++ c)
    have hstep := ih (linesAndRest (buffer ++ c)).2 hrest
    simp only [feedChunks, extract_lines, hstep]
    rw [show buffer ++ (c :: cs).flatten = (buffer ++ c) ++ cs.flatten by
      simp [List.flatten_cons, List.append_assoc]]
    rw [linesAndRest_append (buffer ++ c) cs.flatten]
    simp [List.map_append]

/-- C5: feeding a byte stream to the frame reader split at arbitrary chunk
boundaries (including mid-codepoint and mid-delimiter, since framing happens
on raw bytes before decoding) yields the same decoded logical units, in the
same order, and the same final flushed unit as feeding the whole stream as
one unsplit chunk. -/
theorem extract_lines_chunk_invariance (chunks : List (List Nat)) :
    processStream chunks = processStream [chunks.flatten] := by
  simp only [processStream]
  rw [feedChunks_eq_join chunks [] (by simp),
    feedChunks_eq_join [chunks.flatten] [] (by simp)]
  simp

theorem lookupKV_insertKV_self {α : Type} (l : List (String × α)) (k : String)
    (v : α) : lookupKV (insertKV l k v) k = some v := by
  induction l with
  | nil => simp [insertKV, lookupKV]
  | cons p rest ih =>
    by_cases h : p.1 = k
    · simp [insertKV, lookupKV, h]
    · simp [insertKV, lookupKV, h, ih]

theorem lookupKV_insertKV_ne {α : Type} (l : List (String × α)) (k k' : String)
    (v : α) (h : k' ≠ k) : lookupKV (insertKV l k v) k' = lookupKV l k' := by
  induction l with
  | nil => simp [insertKV, lookupKV, Ne.symm h]
  | cons p rest ih =>
    by_cases hp : p.1 = k
    · subst hp
      simp [insertKV, lookupKV, Ne.symm h]
    · simp only [insertKV, if_neg hp]
      by_cases hp' : p.1 = k'
      · simp [lookupKV, hp']
      · simp [lookupKV, hp', ih]

theorem eraseKV_insertKV {α : Type} (l : List (String × α)) (k : String)
    (v : α) : eraseKV (insertKV l k v) k = eraseKV l k := by
  induction l with
  | nil => simp [insertKV, eraseKV]
  | cons p rest ih =>
    by_cases hp : p.1 = k
    · simp [insertKV, eraseKV, hp]
    · simp [insertKV, eraseKV, hp, ih]

theorem eraseKV_of_lookup_none {α : Type} (l : List (String × α)) (k : String)
    (h : lookupKV l k = none) : eraseKV l k = l := by
  induction l with
  | nil => rfl
  | cons p rest ih =>
    by_cases hp : p.1 = k
    · rw [show p = (p.1, p.2) from rfl, lookupKV] at h
      simp [hp] at h
    · rw [show p = (p.1, p.2) from rfl, lookupKV] at h
      simp only [hp, if_false] at h
      simp [eraseKV, hp, ih h]

theorem mergedInv_key (t : Json) (k : String) (i : Int) (acc : String)
    (h : MergedInv t k i acc) :
    delta_event_key t = some (k, i) ∧ deltaStringOf t = some acc := by
  obtain ⟨fields, assistantFields, rfl, hTy, hAe, hDt, hKind, hCi, hDelta⟩ := h
  constructor
  · simp only [delta_event_key, Json.get, hTy, hAe, hDt, hCi, Json.asStr,
      Json.asI64, Option.bind_some]
    rcases hKind with rfl | rfl <;> simp
  · simp [deltaStringOf, Json.get, hAe, hDelta, Json.asStr]

theorem mergedInv_of_key (e : Json) (k : String) (i : Int) (s : String)
    (hk : delta_event_key e = some (k, i)) (hs : deltaStringOf e = some s) :
    MergedInv e k i s := by
  cases e with
  | obj fields =>
    simp only [delta_event_key, Json.get] at hk
    split at hk
    · exact absurd hk (by simp)
    · rename_i eventType hT
      split at hk
      · rename_i hmu
        subst hmu
        split at hk
        · exact absurd hk (by simp)
        · rename_i assistantEvent hA
          split at hk
          · exact absurd hk (by simp)
          · rename_i deltaType hDT
            split at hk
            · rename_i hd
              split at hk
              · exact absurd hk (by simp)
              · rename_i contentIndex hCI
                simp only [Option.some.injEq, Prod.mk.injEq] at hk
                obtain ⟨rfl, rfl⟩ := hk
                have hDT' : (Json.get assistantEvent "type").bind Json.asStr =
                    some deltaType := hDT
                have hCI' : (Json.get assistantEvent "contentIndex").bind
                    Json.asI64 = some contentIndex := hCI
                obtain ⟨vT, hvT, hvT2⟩ := Option.bind_eq_some.mp hT
                cases vT <;> simp [Json.asStr] at hvT2
                subst hvT2
                obtain ⟨vDT, hvDT, hvDT2⟩ := Option.bind_eq_some.mp hDT'
                cases vDT <;> simp [Json.asStr] at hvDT2
                subst hvDT2
                obtain ⟨vCI, hvCI, hvCI2⟩ := Option.bind_eq_some.mp hCI'
                cases vCI <;> simp [Json.asI64] at hvCI2
                subst hvCI2
                cases assistantEvent with
                | obj assistantFields =>
                  simp only [Json.get] at hvDT hvCI
                  simp only [deltaStringOf, Json.get, hA, Option.bind_some] at hs
                  obtain ⟨vD, hvD, hvD2⟩ := Option.bind_eq_some.mp hs
                  cases vD <;> simp [Json.asStr] at hvD2
                  subst hvD2
                  exact ⟨fields, assistantFields, rfl, hvT, hA, hvDT, hd, hvCI, hvD⟩
                | null => simp [Json.get] at hvDT
                | bool b => simp [Json.get] at hvDT
                | num n => simp [Json.get] at hvDT
                | str s2 => simp [Json.get] at hvDT
                | arr a2 => simp [Json.get] at hvDT
            · exact absurd hk (by simp)
      · exact absurd hk (by simp)
  | null => simp [delta_event_key, Json.get] at hk
  | bool b => simp [delta_event_key, Json.get] at hk
  | num n => simp [delta_event_key, Json.get] at hk
  | str s2 => simp [delta_event_key, Json.get] at hk
  | arr a2 => simp [delta_event_key, Json.get] at hk

theorem append_delta_merged (t e : Json) (k : String) (i : Int) (acc s : String)
    (hInv : MergedInv t k i acc) (hk : delta_event_key e = some (k, i))
    (hs : deltaStringOf e = some s) :
    ∃ t', append_delta t e = some t' ∧ MergedInv t' k i (acc ++ s) := by
  obtain ⟨fields, aF, rfl, hTy, hAe, hDt, hKind, hCi, hDelta⟩ := hInv
  refine ⟨Json.obj (insertKV fields "assistantMessageEvent"
    (.obj (insertKV aF "delta" (.str (acc ++ s))))), ?_, ?_⟩
  · simp [append_delta, hs, hAe, hDelta, Json.asStr]
  · refine ⟨_, _, rfl, ?_, lookupKV_insertKV_self .., ?_, hKind, ?_, ?_⟩
    · rw [lookupKV_insertKV_ne _ _ _ _ (by decide)]
      exact hTy
    · rw [lookupKV_insertKV_ne _ _ _ _ (by decide)]
      exact hDt
    · rw [lookupKV_insertKV_ne _ _ _ _ (by decide)]
      exact hCi
    · exact lookupKV_insertKV_self ..

theorem foldDeltas (sid : String) (k : String) (i : Int) (es : List Json) :
    ∀ (p : List (String × List Json)) (t : Json) (acc : String),
      MergedInv t k i acc →
      (∀ e ∈ es, delta_event_key e = some (k, i)) →
      (∀ e ∈ es, (deltaStringOf e).isSome = true) →
      lookupKV p sid = some [t] →
      ∃ t',
        lookupKV (es.foldl (fun q e => (maybe_queue_delta q sid e).1) p) sid =
          some [t'] ∧
        eraseKV (es.foldl (fun q e => (maybe_queue_delta q sid e).1) p) sid =
          eraseKV p sid ∧
        MergedInv t' k i (acc ++ concatFrags es) := by
  induction es with
  | nil =>
    intro p t acc hInv _ _ hp
    refine ⟨t, by simpa using hp, rfl, ?_⟩
    have : acc ++ concatFrags [] = acc := by
      simp [concatFrags]
    rw [this]
    exact hInv
  | cons e es ih =>
    intro p t acc hInv hkey hstr hp
    have hke : delta_event_key e = some (k, i) := hkey e (by simp)
    obtain ⟨s, hse⟩ := Option.isSome_iff_exists.mp (hstr e (by simp))
    obtain ⟨t₁, hApp, hInv₁⟩ := append_delta_merged t e k i acc s hInv hke hse
    have hkt := (mergedInv_key t k i acc hInv).1
    have hstep : (maybe_queue_delta p sid e).1 = insertKV p sid [t₁] := by
      simp [maybe_queue_delta, hke, hp, queueDelta, hkt, hApp]
    rw [List.foldl_cons, hstep]
    obtain ⟨t', h1, h2, h3⟩ := ih (insertKV p sid [t₁]) t₁ (acc ++ s) hInv₁
      (fun e' he' => hkey e' (by simp [he'])) (fun e' he' => hstr e' (by simp [he']))
      (lookupKV_insertKV_self ..)
    refine ⟨t', h1, ?_, ?_⟩
    · rw [h2, eraseKV_insertKV]
    · have hc : concatFrags (e :: es) = s ++ concatFrags es := by
        simp [concatFrags, hse]
      rw [hc, ← String.append_assoc]
      exact h3

/-- C4: for every nonempty run of same-kind same-contentIndex text or
thinking deltas queued for one session (starting from no buffered entry for
that session), flushing the session emits a single event whose delta string
is the concatenation of the individual delta fragments in arrival order; and
a delta event whose key differs from the last buffered entry's key starts a
new buffered entry instead of merging. -/
theorem session_delta_coalescer_concat
    (pending : List (String × List Json)) (sid : String) (k : String) (i : Int)
    (es : List Json)
    (h0 : lookupKV pending sid = none) (hne : es ≠ [])
    (hkey : ∀ e ∈ es, delta_event_key e = some (k, i))
    (hstr : ∀ e ∈ es, (deltaStringOf e).isSome = true) :
    (∃ merged,
      (flush_session (es.foldl (fun q e => (maybe_queue_delta q sid e).1)
        pending) sid).1 = [merged] ∧
      deltaStringOf merged = some (concatFrags es) ∧
      delta_event_key merged = some (k, i) ∧
      lookupKV ((flush_session (es.foldl (fun q e =>
        (maybe_queue_delta q sid e).1) pending) sid).2) sid = none) ∧
    ∀ (q : List Json) (e lastEv : Json) (key1 key2 : String × Int),
      q.getLast? = some lastEv → delta_event_key lastEv = some key2 →
      key2 ≠ key1 → queueDelta q e key1 = q ++ [e] := by
  constructor
  · cases es with
    | nil => exact absurd rfl hne
    | cons e0 es' =>
      have hk0 : delta_event_key e0 = some (k, i) := hkey e0 (by simp)
      obtain ⟨s0, hs0⟩ := Option.isSome_iff_exists.mp (hstr e0 (by simp))
      have hInv0 := mergedInv_of_key e0 k i s0 hk0 hs0
      have hstep : (maybe_queue_delta pending sid e0).1 =
          insertKV pending sid [e0] := by
        simp [maybe_queue_delta, hk0, h0, queueDelta]
      rw [List.foldl_cons, hstep]
      obtain ⟨t', h1, h2, h3⟩ := foldDeltas sid k i es'
        (insertKV pending sid [e0]) e0 s0 hInv0
        (fun e' he' => hkey e' (by simp [he']))
        (fun e' he' => hstr e' (by simp [he']))
        (lookupKV_insertKV_self ..)
      refine ⟨t', ?_, ?_, ?_, ?_⟩
      · simp [flush_session, h1]
      · have hcat : concatFrags (e0 :: es') = s0 ++ concatFrags es' := by
          simp [concatFrags, hs0]
        rw [hcat]
        exact (mergedInv_key t' k i _ h3).2
      · exact (mergedInv_key t' k i _ h3).1
      · simp only [flush_session]
        rw [h2, eraseKV_insertKV, eraseKV_of_lookup_none pending sid h0, h0]
  · intro q e lastEv key1 key2 hlast hkey2 hne2
    simp [queueDelta, hlast, hkey2, hne2]

/-- Witness for C4: the Hello scenario — two text_delta fragments "He" and
"llo" for session s1 coalesce into a single flushed event carrying "Hello". -/
theorem session_delta_coalescer_concat_witness :
    ∃ merged,
      (flush_session ([sampleDeltaEvent "He", sampleDeltaEvent "llo"].foldl
        (fun q e => (maybe_queue_delta q "s1" e).1) []) "s1").1 = [merged] ∧
      deltaStringOf merged = some "Hello" := by
  obtain ⟨⟨merged, h1, h2, _, _⟩, _⟩ :=
    session_delta_coalescer_concat [] "s1" "text_delta" 0
      [sampleDeltaEvent "He", sampleDeltaEvent "llo"] rfl (by simp)
      (by intro e he; simp [List.mem_cons] at he; rcases he with rfl | rfl <;> decide)
      (by intro e he; simp [List.mem_cons] at he; rcases he with rfl | rfl <;> decide)
  refine ⟨merged, h1, ?_⟩
  rw [h2]
  decide

theorem write_ne_timeout (e : String) :
    ("Failed to write to sidecar: " ++ e) ≠ "Timeout waiting for response" := by
  intro h
  have h2 : ("Failed to write to sidecar: " ++ e).data =
      "Timeout waiting for response".data := congrArg String.data h
  rw [String.data_append] at h2
  have hF : "Failed to write to sidecar: ".data =
      'F' :: "ailed to write to sidecar: ".data := by decide
  have hT : "Timeout waiting for response".data =
      'T' :: "imeout waiting for response".data := by decide
  rw [hF, hT, List.cons_append] at h2
  injection h2 with h3 _
  exact absurd h3 (by decide)

theorem write_newline_ne_timeout (e : String) :
    ("Failed to write newline to sidecar: " ++ e) ≠
      "Timeout waiting for response" := by
  intro h
  have h2 : ("Failed to write newline to sidecar: " ++ e).data =
      "Timeout waiting for response".data := congrArg String.data h
  rw [String.data_append] at h2
  have hF : "Failed to write newline to sidecar: ".data =
      'F' :: "ailed to write newline to sidecar: ".data := by decide
  have hT : "Timeout waiting for response".data =
      'T' :: "imeout waiting for response".data := by decide
  rw [hF, hT, List.cons_append] at h2
  injection h2 with h3 _
  exact absurd h3 (by decide)

/-- C1 (amended): every call returns exactly one outcome; when a sidecar
child exists and the registered waiter is not dropped by outside
interference, that outcome is exactly one of a matching response (whose id
equals the command's id), the timeout error, or a write error. Calls with no
child return the not-started error and an externally dropped waiter yields
the channel-closed error instead. -/
theorem send_command_with_response_trichotomy
    (st : BrokerState) (cmd : RpcCommand) (id : String) (t token : Nat)
    (env : SendEnv) (hchild : st.child.isSome = true)
    (hdrop : env.senderDropped = false) :
    ExactlyOneOf
      (IsMatchedResponse (send_command_with_response st cmd id t token env).1 id)
      (IsTimeoutOutcome (send_command_with_response st cmd id t token env).1)
      (IsWriteErrorOutcome (send_command_with_response st cmd id t token env).1) := by
  rcases env with ⟨w1, w2, arr, dropped⟩
  simp only at hdrop
  subst hdrop
  cases hc : st.child with
  | none => rw [hc] at hchild; simp at hchild
  | some child =>
    cases w1 with
    | fail e =>
      refine Or.inr (Or.inr ⟨?_, ?_, ?_⟩)
      · rintro ⟨r, hr, -⟩
        simp [send_command_with_response, hc] at hr
      · intro h
        simp only [send_command_with_response, hc, IsTimeoutOutcome,
          Except.error.injEq] at h
        exact write_ne_timeout e h
      · exact ⟨e, Or.inl (by simp [send_command_with_response, hc])⟩
    | ok =>
      cases w2 with
      | fail e =>
        refine Or.inr (Or.inr ⟨?_, ?_, ?_⟩)
        · rintro ⟨r, hr, -⟩
          simp [send_command_with_response, hc] at hr
        · intro h
          simp only [send_command_with_response, hc, IsTimeoutOutcome,
            Except.error.injEq] at h
          exact write_newline_ne_timeout e h
        · exact ⟨e, Or.inr (by simp [send_command_with_response, hc])⟩
      | ok =>
        rcases harr : arr with _ | r0
        · refine Or.inr (Or.inl ⟨?_, ?_, ?_⟩)
          · rintro ⟨r, hr, -⟩
            simp [send_command_with_response, hc] at hr
          · simp [IsTimeoutOutcome, send_command_with_response, hc]
          · rintro ⟨e, h | h⟩ <;>
              simp [send_command_with_response, hc] at h <;>
              first
                | exact write_ne_timeout e h.symm
                | exact write_newline_ne_timeout e h.symm
                | exact write_ne_timeout e h
                | exact write_newline_ne_timeout e h
        · rcases hid : r0.id with _ | i0
          · refine Or.inr (Or.inl ⟨?_, ?_, ?_⟩)
            · rintro ⟨r, hr, -⟩
              simp [send_command_with_response, hc, routeResponsePair, hid] at hr
            · simp [IsTimeoutOutcome, send_command_with_response, hc,
                routeResponsePair, hid]
            · rintro ⟨e, h | h⟩ <;>
                simp [send_command_with_response, hc, routeResponsePair, hid]
                  at h <;>
                first
                  | exact write_ne_timeout e h.symm
                  | exact write_newline_ne_timeout e h.symm
                  | exact write_ne_timeout e h
                  | exact write_newline_ne_timeout e h
          · by_cases hmatch : i0 = id
            · refine Or.inl ⟨⟨r0, ?_, ?_⟩, ?_, ?_⟩
              · simp [send_command_with_response, hc, routeResponsePair, hid,
                  hmatch]
              · rw [hid, hmatch]
              · simp [IsTimeoutOutcome, send_command_with_response, hc,
                  routeResponsePair, hid, hmatch]
              · rintro ⟨e, h | h⟩ <;>
                  simp [send_command_with_response, hc, routeResponsePair, hid,
                    hmatch] at h
            · refine Or.inr (Or.inl ⟨?_, ?_, ?_⟩)
              · rintro ⟨r, hr, -⟩
                simp [send_command_with_response, hc, routeResponsePair, hid,
                  hmatch] at hr
              · simp [IsTimeoutOutcome, send_command_with_response, hc,
                  routeResponsePair, hid, hmatch]
              · rintro ⟨e, h | h⟩ <;>
                  simp [send_command_with_response, hc, routeResponsePair, hid,
                    hmatch] at h <;>
                  first
                    | exact write_ne_timeout e h.symm
                    | exact write_newline_ne_timeout e h.symm
                    | exact write_ne_timeout e h
                    | exact write_newline_ne_timeout e h

/-- Counterexample to C1 as stated: a call made while no sidecar child exists
returns the not-started error, which is none of the three claimed outcomes
(matching response, timeout error, write error). -/
theorem send_command_with_response_no_child_counterexample :
    ¬IsMatchedResponse ((send_command_with_response ⟨none, []⟩ (pingCommand "u")
      "u" 5 0 ⟨.ok, .ok, none, false⟩).1) "u" ∧
    ¬IsTimeoutOutcome ((send_command_with_response ⟨none, []⟩ (pingCommand "u")
      "u" 5 0 ⟨.ok, .ok, none, false⟩).1) ∧
    ¬IsWriteErrorOutcome ((send_command_with_response ⟨none, []⟩ (pingCommand "u")
      "u" 5 0 ⟨.ok, .ok, none, false⟩).1) := by
  have hres : (send_command_with_response ⟨none, []⟩ (pingCommand "u") "u" 5 0
      ⟨.ok, .ok, none, false⟩).1 = .error "Agent session not started" := rfl
  refine ⟨?_, ?_, ?_⟩
  · rintro ⟨r, hr, -⟩
    rw [hres] at hr
    exact absurd hr (by simp)
  · intro h
    rw [IsTimeoutOutcome, hres] at h
    injection h with h2
    exact absurd h2 (by decide)
  · rintro ⟨e, h | h⟩ <;> rw [hres] at h <;> injection h with h2
    · have hl := congrArg String.length h2
      rw [String.length_append] at hl
      have h25 : ("Agent session not started" : String).length = 25 := by decide
      have h28 : ("Failed to write to sidecar: " : String).length = 28 := by decide
      rw [h25, h28] at hl
      omega
    · have hl := congrArg String.length h2
      rw [String.length_append] at hl
      have h25 : ("Agent session not started" : String).length = 25 := by decide
      have h36 : ("Failed to write newline to sidecar: " : String).length = 36 := by
        decide
      rw [h25, h36] at hl
      omega

/-- Witness for C1 at a concrete run: a live child and a matching wire
response with id "u". -/
theorem send_command_with_response_trichotomy_witness :
    ExactlyOneOf
      (IsMatchedResponse ((send_command_with_response ⟨some (), []⟩
        (pingCommand "u") "u" 5 0
        ⟨.ok, .ok, some ⟨some "u", "response", "ping", true, none, none⟩,
          false⟩).1) "u")
      (IsTimeoutOutcome ((send_command_with_response ⟨some (), []⟩
        (pingCommand "u") "u" 5 0
        ⟨.ok, .ok, some ⟨some "u", "response", "ping", true, none, none⟩,
          false⟩).1))
      (IsWriteErrorOutcome ((send_command_with_response ⟨some (), []⟩
        (pingCommand "u") "u" 5 0
        ⟨.ok, .ok, some ⟨some "u", "response", "ping", true, none, none⟩,
          false⟩).1)) :=
  send_command_with_response_trichotomy ⟨some (), []⟩ (pingCommand "u") "u" 5 0
    ⟨.ok, .ok, some ⟨some "u", "response", "ping", true, none, none⟩, false⟩
    rfl rfl

theorem eraseKV_sublist {α : Type} (l : List (String × α)) (k : String) :
    (eraseKV l k).Sublist l := by
  induction l with
  | nil => simp [eraseKV]
  | cons p rest ih =>
    by_cases hp : p.1 = k
    · simp only [eraseKV, hp, if_true]
      exact List.sublist_cons_self p rest
    · simp only [eraseKV, hp, if_false]
      exact List.Sublist.cons₂ p ih

theorem keysOf_eraseKV_nodup {α : Type} (l : List (String × α)) (k : String)
    (h : (keysOf l).Nodup) : (keysOf (eraseKV l k)).Nodup :=
  List.Nodup.sublist (List.Sublist.map Prod.fst (eraseKV_sublist l k)) h

theorem keysOf_insertKV_mem {α : Type} (l : List (String × α)) (k x : String)
    (v : α) (h : x ∈ keysOf (insertKV l k v)) : x = k ∨ x ∈ keysOf l := by
  induction l with
  | nil => simpa [insertKV, keysOf] using h
  | cons p rest ih =>
    by_cases hp : p.1 = k
    · simp only [insertKV, hp, if_true, keysOf, List.map_cons] at h
      rcases List.mem_cons.mp h with h1 | h1
    
      · exact Or.inl h1
      · exact Or.inr (by simp [keysOf, List.mem_cons]; right; simpa [keysOf] using h1)
    · simp only [insertKV, hp, if_false, keysOf, List.map_cons] at h
      rcases List.mem_cons.mp h with h1 | h1
      · exact Or.inr (by simp [keysOf, h1])
      · rcases ih (by simpa [keysOf] using h1) with h2 | h2
        · exact Or.inl h2
        · exact Or.inr (by simp [keysOf, List.mem_cons]; right; simpa [keysOf] using h2)

theorem keysOf_insertKV_nodup {α : Type} (l : List (String × α)) (k : String)
    (v : α) (h : (keysOf l).Nodup) : (keysOf (insertKV l k v)).Nodup := by
  induction l with
  | nil => simp [insertKV, keysOf]
  | cons p rest ih =>
    simp only [keysOf, List.map_cons, List.nodup_cons] at h
    by_cases hp : p.1 = k
    · simp only [insertKV, hp, if_true, keysOf, List.map_cons, List.nodup_cons]
      exact ⟨by rw [← hp]; simpa [keysOf] using h.1, h.2⟩
    · simp only [insertKV, hp, if_false, keysOf, List.map_cons, List.nodup_cons]
      refine ⟨?_, ih h.2⟩
      intro hmem
      rcases keysOf_insertKV_mem rest k p.1 v (by simpa [keysOf] using hmem)
        with h1 | h1
      · exact hp h1
      · exact absurd (by simpa [keysOf] using h1) h.1

/-- C2: the pending table keeps at most one waiter per id (no duplicate
keys), a call that registers a waiter does so before any stdin write and
removes it exactly once on every exit path (success, write failure, timeout,
closed channel), leaving the table without the id; a call that registers
nothing (no child) leaves the state untouched. -/
theorem pending_requests_one_waiter_per_id
    (st : BrokerState) (cmd : RpcCommand) (id : String) (t token : Nat)
    (env : SendEnv) (hnodup : (keysOf st.pending).Nodup) :
    (keysOf (send_command_with_response st cmd id t token env).2.1.pending).Nodup ∧
    (st.child.isSome = true →
      (send_command_with_response st cmd id t token env).2.1.pending =
        eraseKV st.pending id ∧
      insertCount (send_command_with_response st cmd id t token env).2.2 id = 1 ∧
      removeCount (send_command_with_response st cmd id t token env).2.2 id = 1 ∧
      ∃ rest, (send_command_with_response st cmd id t token env).2.2 =
        TraceEv.insertEv id :: rest) ∧
    (st.child = none →
      (send_command_with_response st cmd id t token env).2.1 = st ∧
      (send_command_with_response st cmd id t token env).2.2 = []) := by
  cases hc : st.child with
  | none =>
    refine ⟨?_, ?_, ?_⟩
    · simpa [send_command_with_response, hc] using hnodup
    · intro h
      simp at h
    · intro _
      constructor <;> simp [send_command_with_response, hc]
  | some child =>
    rcases env with ⟨w1, w2, arr, dropped⟩
    have main :
        (send_command_with_response st cmd id t token
          ⟨w1, w2, arr, dropped⟩).2.1.pending = eraseKV st.pending id ∧
        insertCount (send_command_with_response st cmd id t token
          ⟨w1, w2, arr, dropped⟩).2.2 id = 1 ∧
        removeCount (send_command_with_response st cmd id t token
          ⟨w1, w2, arr, dropped⟩).2.2 id = 1 ∧
        ∃ rest, (send_command_with_response st cmd id t token
          ⟨w1, w2, arr, dropped⟩).2.2 = TraceEv.insertEv id :: rest := by
      cases w1 with
      | fail e =>
        refine ⟨?_, ?_, ?_, ?_⟩ <;>
          simp [send_command_with_response, hc, eraseKV_insertKV, insertCount,
            removeCount, isInsertOf, isRemoveOf] <;> try exact ⟨_, rfl⟩
      | ok =>
        cases w2 with
        | fail e =>
          refine ⟨?_, ?_, ?_, ?_⟩ <;>
            simp [send_command_with_response, hc, eraseKV_insertKV, insertCount,
              removeCount, isInsertOf, isRemoveOf] <;> try exact ⟨_, rfl⟩
        | ok =>
          cases dropped with
          | true =>
            refine ⟨?_, ?_, ?_, ?_⟩ <;>
              simp [send_command_with_response, hc, eraseKV_insertKV,
                insertCount, removeCount, isInsertOf, isRemoveOf] <;>
              try exact ⟨_, rfl⟩
          | false =>
            rcases arr with _ | r0
            · refine ⟨?_, ?_, ?_, ?_⟩ <;>
                simp [send_command_with_response, hc, eraseKV_insertKV,
                  insertCount, removeCount, isInsertOf, isRemoveOf] <;>
                try exact ⟨_, rfl⟩
            · rcases hid : r0.id with _ | i0
              · refine ⟨?_, ?_, ?_, ?_⟩ <;>
                  simp [send_command_with_response, hc, routeResponsePair, hid,
                    eraseKV_insertKV, insertCount, removeCount, isInsertOf,
                    isRemoveOf] <;> try exact ⟨_, rfl⟩
              · by_cases hm : i0 = id
                · refine ⟨?_, ?_, ?_, ?_⟩ <;>
                    simp [send_command_with_response, hc, routeResponsePair,
                      hid, hm, eraseKV_insertKV, insertCount, removeCount,
                      isInsertOf, isRemoveOf] <;> try exact ⟨_, rfl⟩
                · refine ⟨?_, ?_, ?_, ?_⟩ <;>
                    simp [send_command_with_response, hc, routeResponsePair,
                      hid, hm, eraseKV_insertKV, insertCount, removeCount,
                      isInsertOf, isRemoveOf] <;> try exact ⟨_, rfl⟩
    refine ⟨?_, fun _ => main, fun hnone => ?_⟩
    · rw [main.1]
      exact keysOf_eraseKV_nodup _ _ hnodup
    · exact Option.noConfusion hnone

/-- Witness for C2 at a concrete run: a timeout with one other pending
waiter in the table. -/
theorem pending_requests_one_waiter_per_id_witness :
    (keysOf (send_command_with_response ⟨some (), [("other", 7)]⟩
      (pingCommand "u") "u" 5 0 ⟨.ok, .ok, none, false⟩).2.1.pending).Nodup ∧
    (send_command_with_response ⟨some (), [("other", 7)]⟩ (pingCommand "u")
      "u" 5 0 ⟨.ok, .ok, none, false⟩).2.1.pending = [("other", 7)] := by
  have h := pending_requests_one_waiter_per_id ⟨some (), [("other", 7)]⟩
    (pingCommand "u") "u" 5 0 ⟨.ok, .ok, none, false⟩ (by decide)
  refine ⟨h.1, ?_⟩
  rw [(h.2.1 rfl).1]
  decide

/-- Counterexample to C3 as stated: invoking the legacy start command
start_agent_session (src/src-tauri/src/lib.rs) with a child already present
does not return success — it returns the already-running error (while indeed
spawning nothing). -/
theorem start_agent_session_existing_child_counterexample :
    (start_agent_session ⟨some (), []⟩ (.ok ())).1 ≠ .ok () ∧
    (start_agent_session ⟨some (), []⟩ (.ok ())).1 =
      .error "Agent session already running" ∧
    (start_agent_session ⟨some (), []⟩ (.ok ())).2.2 = false := by
  refine ⟨?_, rfl, rfl⟩
  intro h
  exact absurd h (by simp [start_agent_session])

/-- C3 (amended): when a sidecar child already exists, ensure_sidecar_started
returns success without spawning a new child, while the legacy
start_agent_session returns the already-running error — in both cases no new
child process is spawned and the state is unchanged. -/
theorem start_with_existing_child (st : BrokerState)
    (spawn : Except String Unit) (ready : Nat → Except String RpcResponse)
    (h : st.child.isSome = true) :
    ensure_sidecar_started st spawn ready = (.ok (), st, false) ∧
    start_agent_session st spawn =
      (.error "Agent session already running", st, false) := by
  constructor <;> simp [ensure_sidecar_started, start_agent_session, h]

/-- Witness for C3 at a concrete state with a live child. -/
theorem start_with_existing_child_witness :
    ensure_sidecar_started ⟨some (), []⟩ (.ok ())
      (fun _ => .error "no pings") = (.ok (), ⟨some (), []⟩, false) ∧
    start_agent_session ⟨some (), []⟩ (.ok ()) =
      (.error "Agent session already running", ⟨some (), []⟩, false) :=
  start_with_existing_child ⟨some (), []⟩ (.ok ())
    (fun _ => .error "no pings") rfl

theorem waitReadyAux_step1 (env : Nat → Except String RpcResponse)
    (le : String) :
    waitReadyAux env 3 1 3 le =
      if isSuccessPing (env 1) then (.ok (), 1, [])
      else ((waitReadyAux env 3 2 2 (readyFailMsg (env 1))).1,
        (waitReadyAux env 3 2 2 (readyFailMsg (env 1))).2.1 + 1,
        500 :: (waitReadyAux env 3 2 2 (readyFailMsg (env 1))).2.2) := rfl

theorem waitReadyAux_step2 (env : Nat → Except String RpcResponse)
    (le : String) :
    waitReadyAux env 3 2 2 le =
      if isSuccessPing (env 2) then (.ok (), 1, [])
      else ((waitReadyAux env 3 3 1 (readyFailMsg (env 2))).1,
        (waitReadyAux env 3 3 1 (readyFailMsg (env 2))).2.1 + 1,
        500 :: (waitReadyAux env 3 3 1 (readyFailMsg (env 2))).2.2) := rfl

theorem waitReadyAux_step3 (env : Nat → Except String RpcResponse)
    (le : String) :
    waitReadyAux env 3 3 1 le =
      if isSuccessPing (env 3) then (.ok (), 1, [])
      else (.error ("Sidecar failed readiness check after " ++ toString 3 ++
        " attempts: " ++ readyFailMsg (env 3)), 0 + 1, []) := rfl

/-- C7: readiness probing after spawn sends at most 3 no-op ping commands
with a fixed 500 ms backoff between consecutive attempts; the first
successful ping response short-circuits with success, and exhausting all 3
attempts yields the readiness error (built from the last failure) that is
fatal to that start call. -/
theorem wait_for_sidecar_ready_spec (env : Nat → Except String RpcResponse) :
    (1 ≤ (wait_for_sidecar_ready env 3).2.1 ∧
      (wait_for_sidecar_ready env 3).2.1 ≤ 3) ∧
    (wait_for_sidecar_ready env 3).2.2 =
      List.replicate ((wait_for_sidecar_ready env 3).2.1 - 1) 500 ∧
    ((wait_for_sidecar_ready env 3).1 = .ok () →
      isSuccessPing (env (wait_for_sidecar_ready env 3).2.1) = true ∧
      ∀ j, 1 ≤ j → j < (wait_for_sidecar_ready env 3).2.1 →
        isSuccessPing (env j) = false) ∧
    ((∀ j, 1 ≤ j → j ≤ 3 → isSuccessPing (env j) = false) →
      (wait_for_sidecar_ready env 3).2.1 = 3 ∧
      (wait_for_sidecar_ready env 3).1 =
        .error ("Sidecar failed readiness check after " ++ toString 3 ++
          " attempts: " ++ readyFailMsg (env 3))) ∧
    (∀ u, (pingCommand u).rtype = "ping" ∧ (pingCommand u).session_id = none ∧
      (pingCommand u).message = none) := by
  have hPing : ∀ u : String, (pingCommand u).rtype = "ping" ∧
      (pingCommand u).session_id = none ∧ (pingCommand u).message = none :=
    fun u => ⟨rfl, rfl, rfl⟩
  cases h1 : isSuccessPing (env 1) with
  | true =>
    have hw : wait_for_sidecar_ready env 3 = (.ok (), 1, []) := by
      simp [wait_for_sidecar_ready, waitReadyAux_step1, h1]
    rw [hw]
    refine ⟨⟨by norm_num, by norm_num⟩, by simp, fun _ => ⟨h1, ?_⟩,
      fun hall => ?_, hPing⟩
    · intro j hj1 hj2
      simp at hj2
      omega
    · have hcontra := hall 1 (by norm_num) (by norm_num)
      rw [h1] at hcontra
      exact Bool.noConfusion hcontra
  | false =>
    cases h2 : isSuccessPing (env 2) with
    | true =>
      have hw : wait_for_sidecar_ready env 3 = (.ok (), 2, [500]) := by
        simp [wait_for_sidecar_ready, waitReadyAux_step1, waitReadyAux_step2,
          h1, h2]
      rw [hw]
      refine ⟨⟨by norm_num, by norm_num⟩, by simp, fun _ => ⟨h2, ?_⟩,
        fun hall => ?_, hPing⟩
      · intro j hj1 hj2
        simp at hj2
        have hj : j = 1 := by omega
        rw [hj]
        exact h1
      · have hcontra := hall 2 (by norm_num) (by norm_num)
        rw [h2] at hcontra
        exact Bool.noConfusion hcontra
    | false =>
      cases h3 : isSuccessPing (env 3) with
      | true =>
        have hw : wait_for_sidecar_ready env 3 = (.ok (), 3, [500, 500]) := by
          simp [wait_for_sidecar_ready, waitReadyAux_step1, waitReadyAux_step2,
            waitReadyAux_step3, h1, h2, h3]
        rw [hw]
        refine ⟨⟨by norm_num, by norm_num⟩, by simp, fun _ => ⟨h3, ?_⟩,
          fun hall => ?_, hPing⟩
        · intro j hj1 hj2
          simp at hj2
          interval_cases j
          · exact h1
          · exact h2
        · have hcontra := hall 3 (by norm_num) (by norm_num)
          rw [h3] at hcontra
          exact Bool.noConfusion hcontra
      | false =>
        have hw : wait_for_sidecar_ready env 3 =
            (.error ("Sidecar failed readiness check after " ++ toString 3 ++
              " attempts: " ++ readyFailMsg (env 3)), 3, [500, 500]) := by
          simp [wait_for_sidecar_ready, waitReadyAux_step1, waitReadyAux_step2,
            waitReadyAux_step3, h1, h2, h3]
        rw [hw]
        refine ⟨⟨by norm_num, by norm_num⟩, by simp, fun hok => ?_,
          fun _ => ⟨rfl, rfl⟩, hPing⟩
        exact absurd hok (by simp)

/-- Witness for C7 at a concrete environment where every ping fails: all 3
attempts are consumed and the readiness error is returned. -/
theorem wait_for_sidecar_ready_spec_witness :
    (wait_for_sidecar_ready (fun _ => .error "no worker") 3).2.1 = 3 ∧
    (wait_for_sidecar_ready (fun _ => .error "no worker") 3).1 =
      .error ("Sidecar failed readiness check after " ++ toString 3 ++
        " attempts: " ++ readyFailMsg ((fun _ : Nat =>
          (.error "no worker" : Except String RpcResponse)) 3)) :=
  (wait_for_sidecar_ready_spec (fun _ => .error "no worker")).2.2.2.1
    (fun j _ _ => rfl)

theorem createSessionAux_step1 (env : Nat → Except String RpcResponse)
    (ids : Nat → String) (req pd : String) (prov mdl sf : Option String)
    (le : String) :
    createSessionAux env ids req pd prov mdl sf 1 3 le =
      match env 1 with
      | .ok response =>
        (.ok response, [createSessionCommand (ids 1) req pd prov mdl sf], [])
      | .error e =>
        if is_timeout_error e ∧ 1 < CREATE_SESSION_ATTEMPTS then
          ((createSessionAux env ids req pd prov mdl sf 2 2 e).1,
            createSessionCommand (ids 1) req pd prov mdl sf ::
              (createSessionAux env ids req pd prov mdl sf 2 2 e).2.1,
            600 :: (createSessionAux env ids req pd prov mdl sf 2 2 e).2.2)
        else (.error e, [createSessionCommand (ids 1) req pd prov mdl sf], []) :=
  rfl

theorem createSessionAux_step2 (env : Nat → Except String RpcResponse)
    (ids : Nat → String) (req pd : String) (prov mdl sf : Option String)
    (le : String) :
    createSessionAux env ids req pd prov mdl sf 2 2 le =
      match env 2 with
      | .ok response =>
        (.ok response, [createSessionCommand (ids 2) req pd prov mdl sf], [])
      | .error e =>
        if is_timeout_error e ∧ 2 < CREATE_SESSION_ATTEMPTS then
          ((createSessionAux env ids req pd prov mdl sf 3 1 e).1,
            createSessionCommand (ids 2) req pd prov mdl sf ::
              (createSessionAux env ids req pd prov mdl sf 3 1 e).2.1,
            600 :: (createSessionAux env ids req pd prov mdl sf 3 1 e).2.2)
        else (.error e, [createSessionCommand (ids 2) req pd prov mdl sf], []) :=
  rfl

theorem createSessionAux_step3 (env : Nat → Except String RpcResponse)
    (ids : Nat → String) (req pd : String) (prov mdl sf : Option String)
    (le : String) :
    createSessionAux env ids req pd prov mdl sf 3 1 le =
      match env 3 with
      | .ok response =>
        (.ok response, [createSessionCommand (ids 3) req pd prov mdl sf], [])
      | .error e =>
        if is_timeout_error e ∧ 3 < CREATE_SESSION_ATTEMPTS then
          ((createSessionAux env ids req pd prov mdl sf 4 0 e).1,
            createSessionCommand (ids 3) req pd prov mdl sf ::
              (createSessionAux env ids req pd prov mdl sf 4 0 e).2.1,
            600 :: (createSessionAux env ids req pd prov mdl sf 4 0 e).2.2)
        else (.error e, [createSessionCommand (ids 3) req pd prov mdl sf], []) :=
  rfl

/-- C6: session creation retries only on timeout-classified failures, reusing
the same client-generated session id (and cwd) in every attempt's command, up
to 3 attempts with a 600 ms backoff between attempts; the final outcome is
exactly the outcome of the last attempt performed, so any non-timeout failure
propagates immediately without retry. -/
theorem create_session_internal_retry_spec
    (env : Nat → Except String RpcResponse) (ids : Nat → String)
    (req pd : String) (prov mdl sf : Option String) :
    (∀ c ∈ (create_session_internal env ids req pd prov mdl sf).2.1,
      c.rtype = "create_session" ∧ c.session_id = some req ∧
      c.cwd = some pd) ∧
    (1 ≤ (create_session_internal env ids req pd prov mdl sf).2.1.length ∧
      (create_session_internal env ids req pd prov mdl sf).2.1.length ≤ 3) ∧
    (create_session_internal env ids req pd prov mdl sf).2.2 =
      List.replicate
        ((create_session_internal env ids req pd prov mdl sf).2.1.length - 1)
        600 ∧
    (∀ j, 1 ≤ j →
      j < (create_session_internal env ids req pd prov mdl sf).2.1.length →
      ∃ e, env j = .error e ∧ is_timeout_error e = true) ∧
    (create_session_internal env ids req pd prov mdl sf).1 =
      env (create_session_internal env ids req pd prov mdl sf).2.1.length := by
  rcases he1 : env 1 with e1 | r1
  · cases ht1 : is_timeout_error e1 with
    | false =>
      have hw : create_session_internal env ids req pd prov mdl sf =
          (.error e1, [createSessionCommand (ids 1) req pd prov mdl sf], []) := by
        simp [create_session_internal, createSessionAux_step1, he1, ht1,
          CREATE_SESSION_ATTEMPTS]
      rw [hw]
      refine ⟨?_, by simp, by simp, ?_, by simp [he1]⟩
      · intro c hc
        simp at hc
        rw [hc]
        exact ⟨rfl, rfl, rfl⟩
      · intro j hj1 hj2
        simp at hj2
        omega
    | true =>
      rcases he2 : env 2 with e2 | r2
      · cases ht2 : is_timeout_error e2 with
        | false =>
          have hw : create_session_internal env ids req pd prov mdl sf =
              (.error e2, [createSessionCommand (ids 1) req pd prov mdl sf,
                createSessionCommand (ids 2) req pd prov mdl sf], [600]) := by
            simp [create_session_internal, createSessionAux_step1,
              createSessionAux_step2, he1, ht1, he2, ht2,
              CREATE_SESSION_ATTEMPTS]
          rw [hw]
          refine ⟨?_, by simp, by simp, ?_, by simp [he2]⟩
          · intro c hc
            simp at hc
            rcases hc with rfl | rfl <;> exact ⟨rfl, rfl, rfl⟩
          · intro j hj1 hj2
            simp at hj2
            have hj : j = 1 := by omega
            rw [hj]
            exact ⟨e1, he1, ht1⟩
        | true =>
          rcases he3 : env 3 with e3 | r3
          · have hw : create_session_internal env ids req pd prov mdl sf =
                (.error e3, [createSessionCommand (ids 1) req pd prov mdl sf,
                  createSessionCommand (ids 2) req pd prov mdl sf,
                  createSessionCommand (ids 3) req pd prov mdl sf],
                  [600, 600]) := by
              simp [create_session_internal, createSessionAux_step1,
                createSessionAux_step2, createSessionAux_step3, he1, ht1, he2,
                ht2, he3, CREATE_SESSION_ATTEMPTS]
            rw [hw]
            refine ⟨?_, by simp, by simp, ?_, by simp [he3]⟩
            · intro c hc
              simp at hc
              rcases hc with rfl | rfl | rfl <;> exact ⟨rfl, rfl, rfl⟩
            · intro j hj1 hj2
              simp at hj2
              interval_cases j
              · exact ⟨e1, he1, ht1⟩
              · exact ⟨e2, he2, ht2⟩
          · have hw : create_session_internal env ids req pd prov mdl sf =
                (.ok r3, [createSessionCommand (ids 1) req pd prov mdl sf,
                  createSessionCommand (ids 2) req pd prov mdl sf,
                  createSessionCommand (ids 3) req pd prov mdl sf],
                  [600, 600]) := by
              simp [create_session_internal, createSessionAux_step1,
                createSessionAux_step2, createSessionAux_step3, he1, ht1, he2,
                ht2, he3, CREATE_SESSION_ATTEMPTS]
            rw [hw]
            refine ⟨?_, by simp, by simp, ?_, by simp [he3]⟩
            · intro c hc
              simp at hc
              rcases hc with rfl | rfl | rfl <;> exact ⟨rfl, rfl, rfl⟩
            · intro j hj1 hj2
              simp at hj2
              interval_cases j
              · exact ⟨e1, he1, ht1⟩
              · exact ⟨e2, he2, ht2⟩
      · have hw : create_session_internal env ids req pd prov mdl sf =
            (.ok r2, [createSessionCommand (ids 1) req pd prov mdl sf,
              createSessionCommand (ids 2) req pd prov mdl sf], [600]) := by
          simp [create_session_internal, createSessionAux_step1,
            createSessionAux_step2, he1, ht1, he2, CREATE_SESSION_ATTEMPTS]
        rw [hw]
        refine ⟨?_, by simp, by simp, ?_, by simp [he2]⟩
        · intro c hc
          simp at hc
          rcases hc with rfl | rfl <;> exact ⟨rfl, rfl, rfl⟩
        · intro j hj1 hj2
          simp at hj2
          have hj : j = 1 := by omega
          rw [hj]
          exact ⟨e1, he1, ht1⟩
  · have hw : create_session_internal env ids req pd prov mdl sf =
        (.ok r1, [createSessionCommand (ids 1) req pd prov mdl sf], []) := by
      simp [create_session_internal, createSessionAux_step1, he1,
        CREATE_SESSION_ATTEMPTS]
    rw [hw]
    refine ⟨?_, by simp, by simp, ?_, by simp [he1]⟩
    · intro c hc
      simp at hc
      rw [hc]
      exact ⟨rfl, rfl, rfl⟩
    · intro j hj1 hj2
      simp at hj2
      omega

/-- Witness for C6 at a concrete environment: a timeout on attempt 1 and a
non-timeout failure on attempt 2 stop the loop at the second attempt. -/
theorem create_session_internal_retry_spec_witness :
    (create_session_internal
      (fun j => if j = 1 then .error "Timeout waiting for response"
        else .error "boom")
      (fun _ => "cmd-id") "sess" "/proj" none none none).1 = .error "boom" ∧
    (create_session_internal
      (fun j => if j = 1 then .error "Timeout waiting for response"
        else .error "boom")
      (fun _ => "cmd-id") "sess" "/proj" none none none).2.1.length = 2 := by
  have h := create_session_internal_retry_spec
    (fun j => if j = 1 then .error "Timeout waiting for response"
      else .error "boom")
    (fun _ => "cmd-id") "sess" "/proj" none none none
  have hlen : (create_session_internal
      (fun j => if j = 1 then .error "Timeout waiting for response"
        else .error "boom")
      (fun _ => "cmd-id") "sess" "/proj" none none none).2.1.length = 2 := by
    decide
  refine ⟨?_, hlen⟩
  have hres := h.2.2.2.2
  rw [hlen] at hres
  exact hres.trans rfl

/-- C8: with no settings file present, loading enabled models returns
patterns=[], defined=false, source="none"; writing ["gpt-*"] with scope
"project" succeeds and a subsequent load for the same project directory
returns patterns=["gpt-*"], defined=true, source="project". -/
theorem enabled_models_scenario (fs : SettingsFs) (home cwd : Option String)
    (d : String)
    (hp : lookupKV fs (d ++ "/.pi/settings.json") = none)
    (hg : ∀ h, home = some h →
      lookupKV fs (h ++ "/.pi/agent/settings.json") = none) :
    load_enabled_models fs (some d) home cwd = ⟨[], false, "none"⟩ ∧
    set_enabled_models fs ["gpt-*"] (some "project") (some d) home cwd =
      .ok (⟨["gpt-*"], true, "project"⟩,
        write_enabled_models_to_settings fs (d ++ "/.pi/settings.json")
          ["gpt-*"]) := by
  have hfs' : write_enabled_models_to_settings fs (d ++ "/.pi/settings.json")
      ["gpt-*"] = insertKV fs (d ++ "/.pi/settings.json")
        (.val (.obj [("enabledModels", .arr [.str "gpt-*"])])) := by
    simp [write_enabled_models_to_settings, hp, insertKV]
  have hload2 : load_enabled_models (insertKV fs (d ++ "/.pi/settings.json")
      (.val (.obj [("enabledModels", .arr [.str "gpt-*"])]))) (some d) home
      cwd = ⟨["gpt-*"], true, "project"⟩ := by
    simp [load_enabled_models, project_settings_path,
      read_enabled_models_from_settings, lookupKV_insertKV_self, lookupKV]
    decide
  constructor
  · cases home with
    | none =>
      simp [load_enabled_models, project_settings_path,
        read_enabled_models_from_settings, hp, global_settings_path]
    | some h =>
      simp [load_enabled_models, project_settings_path,
        read_enabled_models_from_settings, hp, global_settings_path,
        hg h rfl]
  · rw [show set_enabled_models fs ["gpt-*"] (some "project") (some d) home
        cwd = .ok (load_enabled_models (write_enabled_models_to_settings fs
          (d ++ "/.pi/settings.json") ["gpt-*"]) (some d) home cwd,
        write_enabled_models_to_settings fs (d ++ "/.pi/settings.json")
          ["gpt-*"]) from by
      simp [set_enabled_models, project_settings_path]]
    rw [hfs', hload2]

/-- Witness for C8 at a concrete empty file system, project directory /proj
and home directory /home/u. -/
theorem enabled_models_scenario_witness :
    load_enabled_models [] (some "/proj") (some "/home/u") none =
      ⟨[], false, "none"⟩ ∧
    set_enabled_models [] ["gpt-*"] (some "project") (some "/proj")
      (some "/home/u") none =
      .ok (⟨["gpt-*"], true, "project"⟩,
        write_enabled_models_to_settings [] ("/proj" ++ "/.pi/settings.json")
          ["gpt-*"]) :=
  enabled_models_scenario [] (some "/home/u") none "/proj" rfl
    (fun _ _ => rfl)

/-- C10: delete_project_session removes a file only when the trimmed path has
the .jsonl extension, lies under a known session root after
canonicalization, and its parsed header's scope and session id match the
provided project directory and session id; a missing file yields
deleted=false with no error; and every error exit removes no file. -/
theorem delete_project_session_safety (env : DeleteEnv)
    (project_dir session_id file_path : String) :
    (∀ p, (delete_project_session env project_dir session_id file_path).2.1 =
        some p →
      p = trimString file_path ∧ extensionOf p = some "jsonl" ∧
      ((env.candidateRoots ++ local_session_roots_for_scope
          (normalize_path_for_comparison project_dir)).any fun root =>
        path_is_within_root env.canonical p root) = true ∧
      (∃ h, env.header p = some h ∧
        normalize_path_for_comparison h.scope =
          normalize_path_for_comparison project_dir ∧
        trimString h.session_id = trimString session_id) ∧
      (delete_project_session env project_dir session_id file_path).1 =
        .ok ⟨true⟩) ∧
    (normalize_path_for_comparison project_dir ≠ "" →
      trimString session_id ≠ "" → trimString file_path ≠ "" →
      env.fileExists (trimString file_path) = false →
      (delete_project_session env project_dir session_id file_path).1 =
        .ok ⟨false⟩ ∧
      (delete_project_session env project_dir session_id file_path).2.1 =
        none) ∧
    (∀ e, (delete_project_session env project_dir session_id file_path).1 =
        .error e →
      (delete_project_session env project_dir session_id file_path).2.1 =
        none) := by
  by_cases h1 : normalize_path_for_comparison project_dir = ""
  · refine ⟨?_, ?_, ?_⟩ <;> simp [delete_project_session, h1]
  · by_cases h2 : trimString session_id = ""
    · refine ⟨?_, ?_, ?_⟩ <;> simp [delete_project_session, h1, h2]
    · by_cases h3 : trimString file_path = ""
      · refine ⟨?_, ?_, ?_⟩ <;> simp [delete_project_session, h1, h2, h3]
      · cases h4 : env.fileExists (trimString file_path) with
        | false =>
          refine ⟨?_, ?_, ?_⟩ <;>
            simp [delete_project_session, h1, h2, h3, h4]
        | true =>
          by_cases h5 : extensionOf (trimString file_path) = some "jsonl"
          · cases h6 : (env.candidateRoots ++ local_session_roots_for_scope
                (normalize_path_for_comparison project_dir)).any
                (fun root => path_is_within_root env.canonical
                  (trimString file_path) root) with
            | false =>
              refine ⟨?_, ?_, ?_⟩ <;>
                simp [delete_project_session, h1, h2, h3, h4, h5, h6]
            | true =>
              rcases h7 : env.header (trimString file_path) with _ | hdr
              · refine ⟨?_, ?_, ?_⟩ <;>
                  simp [delete_project_session, h1, h2, h3, h4, h5, h6, h7]
              · by_cases h8 : normalize_path_for_comparison hdr.scope =
                    normalize_path_for_comparison project_dir
                · by_cases h9 : trimString hdr.session_id =
                      trimString session_id
                  · cases h10 : env.removeOk with
                    | false =>
                      refine ⟨?_, ?_, ?_⟩ <;>
                        simp [delete_project_session, h1, h2, h3, h4, h5, h6,
                          h7, h8, h9, h10]
                    | true =>
                      refine ⟨?_, ?_, ?_⟩
                      · intro p hp
                        simp [delete_project_session, h1, h2, h3, h4, h5, h6,
                          h7, h8, h9, h10] at hp
                        subst hp
                        refine ⟨rfl, h5, h6, ⟨hdr, h7, h8, h9⟩, ?_⟩
                        simp [delete_project_session, h1, h2, h3, h4, h5, h6,
                          h7, h8, h9, h10]
                      · intro _ _ _ hfe
                        simp [h4] at hfe
                      · intro e he
                        simp [delete_project_session, h1, h2, h3, h4, h5, h6,
                          h7, h8, h9, h10] at he
                  · refine ⟨?_, ?_, ?_⟩ <;>
                      simp [delete_project_session, h1, h2, h3, h4, h5, h6,
                        h7, h8, h9]
                · refine ⟨?_, ?_, ?_⟩ <;>
                    simp [delete_project_session, h1, h2, h3, h4, h5, h6, h7,
                      h8]
          · refine ⟨?_, ?_, ?_⟩ <;>
              simp [delete_project_session, h1, h2, h3, h4, h5]

/-- Witness for C10 at a concrete environment where the target file does not
exist: the call reports deleted=false and removes nothing. -/
theorem delete_project_session_safety_witness :
    (delete_project_session
      ⟨fun _ => false, fun _ => none, [], fun _ => none, true, false⟩
      "/proj" "sid1" "/root/.pi/sessions/a.jsonl").1 = .ok ⟨false⟩ ∧
    (delete_project_session
      ⟨fun _ => false, fun _ => none, [], fun _ => none, true, false⟩
      "/proj" "sid1" "/root/.pi/sessions/a.jsonl").2.1 = none :=
  (delete_project_session_safety
    ⟨fun _ => false, fun _ => none, [], fun _ => none, true, false⟩
    "/proj" "sid1" "/root/.pi/sessions/a.jsonl").2.1
    (by decide) (by decide) (by decide) rfl
